import Mathlib

/-!
Verification of the vertibit-cords geospatial library (index.js) against its
natural-language specification.

Shallow embedding conventions:
* JavaScript numbers are modelled by `JNum`: either NaN, one of the two
  infinities, or a finite value.  Finite values are modelled exactly (as
  rationals at the validation layer, cast to real numbers for the geometric
  formulas); floating-point rounding is not modelled.
* JavaScript primitive values are modelled by `JSAtom`; a coordinate-like
  argument is a `JSInput`: either a primitive (non-object) or an object with
  `lat` and `lng` fields, an optional caller-supplied `distance` field and an
  opaque payload standing for all remaining caller-supplied fields.
* Functions that throw are modelled in `Except String`, the error string being
  the thrown message.
* `Math.sin`, `Math.cos`, `Math.atan2`, `Math.sqrt` are modelled by the exact
  real functions; `Array.prototype.sort` (stable since ES2019) is modelled by
  insertion sort, which is stable.
-/

namespace VertibitCords
/-- A JavaScript number: NaN, one of the infinities, or a finite value. -/
inductive JNum where
  | nan
  | posInf
  | negInf
  | fin (q : ℚ)
deriving DecidableEq

/-- The JavaScript `<` comparison on numbers: any comparison involving NaN is
false; the infinities compare as expected; finite values compare exactly. -/
def JNum.jlt : JNum → JNum → Bool
  | .nan, _ => false
  | _, .nan => false
  | .negInf, .negInf => false
  | .negInf, _ => true
  | _, .negInf => false
  | .posInf, _ => false
  | .fin _, .posInf => true
  | .fin a, .fin b => decide (a < b)

/-- The JavaScript strict inequality `!==` on numbers: NaN differs from
everything (including itself); otherwise structural difference. -/
def JNum.jneq : JNum → JNum → Bool
  | .nan, _ => true
  | _, .nan => true
  | .posInf, .posInf => false
  | .negInf, .negInf => false
  | .fin a, .fin b => decide (a ≠ b)
  | _, _ => true

/-- A primitive JavaScript value as far as this library observes it. -/
inductive JSAtom where
  | num (n : JNum)
  | str (s : String)
  | boolean (b : Bool)
  | nullV
  | undef
deriving DecidableEq

/-- JavaScript truthiness of a primitive value. -/
def JSAtom.truthy : JSAtom → Bool
  | .num .nan => false
  | .num (.fin q) => decide (q ≠ 0)
  | .num _ => true
  | .str s => decide (s ≠ "")
  | .boolean b => b
  | .nullV => false
  | .undef => false

/-- The JavaScript strict inequality `!==` on primitive values. -/
def JSAtom.jneq : JSAtom → JSAtom → Bool
  | .num a, .num b => a.jneq b
  | .str a, .str b => decide (a ≠ b)
  | .boolean a, .boolean b => decide (a ≠ b)
  | .nullV, .nullV => false
  | .undef, .undef => false
  | _, _ => true

/-- A caller-supplied object holding `lat` and `lng` fields (each an arbitrary
primitive value), possibly a caller-supplied `distance` field, and an opaque
payload `α` standing for every other caller-supplied field. -/
structure JSObj (α : Type) where
  lat : JSAtom
  lng : JSAtom
  distField : Option JNum
  payload : α
deriving DecidableEq

/-- A coordinate-like argument: a primitive (hence non-object) value, or an
object. -/
inductive JSInput (α : Type) where
  | atom (v : JSAtom)
  | obj (o : JSObj α)
deriving DecidableEq

/-- `validateCoordinate` from index.js.  All primitive inputs fail the
falsy-or-non-object test (falsy primitives by the first
disjunct, truthy ones by the second); objects must then carry numeric `lat`
and `lng`, and the range tests use the JavaScript `<` and `>` comparisons
(so NaN, for which both comparisons are false, passes them).  The source
returns `undefined` on success; the model returns the validated object. -/
def validateCoordinate (coord : JSInput α) (paramName : String) :
    Except String (JSObj α) :=
  match coord with
  | .atom _ => .error (paramName ++ " must be an object with lat and lng properties")
  | .obj o =>
    match o.lat, o.lng with
    | .num la, .num lo =>
      if la.jlt (.fin (-90)) || (JNum.fin 90).jlt la then
        .error (paramName ++ " latitude must be between -90 and 90 degrees")
      else if lo.jlt (.fin (-180)) || (JNum.fin 180).jlt lo then
        .error (paramName ++ " longitude must be between -180 and 180 degrees")
      else .ok o
    | _, _ => .error (paramName ++ " must have numeric lat and lng properties")

/-- The JavaScript `toLowerCase` on the ASCII unit strings this library
uses: lower-case every character. -/
def jsToLower (s : String) : String :=
  ⟨s.data.map Char.toLower⟩

/-- `validateUnit` from index.js: falsy units yield the default, truthy
non-strings throw, strings are lower-cased and checked against the valid
set. -/
def validateUnit (unit : JSAtom) (validUnits : List String) (defaultUnit : String) :
    Except String String :=
  if !unit.truthy then .ok defaultUnit
  else
    match unit with
    | .str s =>
      let normalizedUnit := jsToLower s
      if validUnits.contains normalizedUnit then .ok normalizedUnit
      else .error ("Invalid unit: " ++ s ++ ". Valid units are: " ++
        String.intercalate ", " validUnits)
    | _ => .error "Unit must be a string"

/-- The exact numeric content of a validated field; NaN and the infinities are
mapped to 0 (they can only reach the geometric layer through a NaN latitude or
longitude, which `validateCoordinate` admits; no claim about the geometric
layer concerns such inputs). -/
def JNum.finPart : JNum → ℚ
  | .fin q => q
  | _ => 0

/-- Numeric content of a primitive value (0 for non-numbers). -/
def JSAtom.finPart : JSAtom → ℚ
  | .num n => n.finPart
  | _ => 0

/-- An exact coordinate, used by the geometric layer. -/
structure Coordinate where
  lat : ℝ
  lng : ℝ

/-- The exact coordinate carried by a validated object. -/
noncomputable def JSObj.toCoordinate (o : JSObj α) : Coordinate :=
  ⟨(o.lat.finPart : ℝ), (o.lng.finPart : ℝ)⟩

/-- `toRadians` from index.js. -/
noncomputable def toRadians (degrees : ℝ) : ℝ :=
  degrees * (Real.pi / 180)

/-- `Math.atan2` (exact real version). -/
noncomputable def atan2 (y x : ℝ) : ℝ :=
  if 0 < x then Real.arctan (y / x)
  else if x < 0 ∧ 0 ≤ y then Real.arctan (y / x) + Real.pi
  else if x < 0 ∧ y < 0 then Real.arctan (y / x) - Real.pi
  else if x = 0 ∧ 0 < y then Real.pi / 2
  else if x = 0 ∧ y < 0 then -(Real.pi / 2)
  else 0

/-- The haversine intermediate `a` from `calculateDistance`. -/
noncomputable def haversineA (c1 c2 : Coordinate) : ℝ :=
  Real.sin (toRadians (c2.lat - c1.lat) / 2) * Real.sin (toRadians (c2.lat - c1.lat) / 2) +
    Real.cos (toRadians c1.lat) * Real.cos (toRadians c2.lat) *
      (Real.sin (toRadians (c2.lng - c1.lng) / 2) * Real.sin (toRadians (c2.lng - c1.lng) / 2))

/-- The haversine distance in kilometers from `calculateDistance`
(R = 6371, c = 2 atan2(sqrt a, sqrt (1 - a)), distance = R * c). -/
noncomputable def haversineKm (c1 c2 : Coordinate) : ℝ :=
  6371 * (2 * atan2 (Real.sqrt (haversineA c1 c2)) (Real.sqrt (1 - haversineA c1 c2)))

/-- The conversion factor applied by the `switch` on the normalized distance
unit in `calculateDistance`. -/
noncomputable def unitFactor (u : String) : ℝ :=
  if u = "miles" then 0.621371
  else if u = "meters" then 1000
  else 1

/-- `calculateDistance` from index.js. -/
noncomputable def calculateDistance (coord1 : JSInput α) (coord2 : JSInput β)
    (unit : JSAtom) : Except String ℝ := do
  let o1 ← validateCoordinate coord1 "coord1"
  let o2 ← validateCoordinate coord2 "coord2"
  let normalizedUnit ← validateUnit unit ["km", "miles", "meters"] "km"
  pure (haversineKm o1.toCoordinate o2.toCoordinate * unitFactor normalizedUnit)

/-- The record returned by the collection queries: the JavaScript spread
`... coord` copies `lat`, `lng` and the payload verbatim, and the trailing
`distance: distance` entry sets the `distance` field to the computed value
(overwriting any caller-supplied `distance` field). -/
structure OutObj (α : Type) where
  lat : JSAtom
  lng : JSAtom
  payload : α
  distance : ℝ

/-- The record built by `results.push(\x7b ...coord, distance \x7d)`. -/
noncomputable def spreadWithDistance (o : JSObj α) (distance : ℝ) : OutObj α :=
  ⟨o.lat, o.lng, o.payload, distance⟩

/-- The JavaScript `<=` comparison between a (real) number and a `JNum`. -/
noncomputable def jleJNum (x : ℝ) : JNum → Bool
  | .nan => false
  | .posInf => true
  | .negInf => false
  | .fin q => decide (x ≤ (q : ℝ))

/-- The `coordinates.forEach` body of `getCoordinatesWithinDistance`:
validate each element (with its index in the message), compute its distance
via `calculateDistance`, and keep it iff `distance <= maxDistance`.
A validation failure anywhere aborts the whole call. -/
noncomputable def withinLoop (fromCoord : JSInput β) (normalizedUnit : String)
    (maxDistance : JNum) : Nat → List (JSInput α) → Except String (List (OutObj α))
  | _, [] => .ok []
  | index, coord :: rest => do
    let o ← validateCoordinate coord ("coordinates[" ++ toString index ++ "]")
    let distance ← calculateDistance fromCoord coord (.str normalizedUnit)
    let tail ← withinLoop fromCoord normalizedUnit maxDistance (index + 1) rest
    if jleJNum distance maxDistance then pure (spreadWithDistance o distance :: tail)
    else pure tail

/-- The comparator `(a, b) => a.distance - b.distance` sorts ascending by
`distance`; `Array.prototype.sort` is stable, modelled by insertion sort
along the `distance`-ordering. -/
def distLE (a b : OutObj α) : Prop :=
  a.distance ≤ b.distance

noncomputable instance : DecidableRel (@distLE α) :=
  fun a b => Real.decidableLE a.distance b.distance

instance : IsTotal (OutObj α) distLE :=
  ⟨fun a b => le_total a.distance b.distance⟩

instance : IsTrans (OutObj α) distLE :=
  ⟨fun _ _ _ h1 h2 => le_trans h1 h2⟩

/-- `getCoordinatesWithinDistance` from index.js.  The `coordinates` argument
is given as a list, so the `Array.isArray` test always passes; `maxDistance`
must be a number not `< 0` under the JavaScript comparison. -/
noncomputable def getCoordinatesWithinDistance (fromCoord : JSInput β)
    (coordinates : List (JSInput α)) (maxDistance : JSAtom) (unit : JSAtom) :
    Except String (List (OutObj α)) := do
  let _ ← validateCoordinate fromCoord "fromCoord"
  match maxDistance with
  | .num m =>
    if m.jlt (.fin 0) then .error "Max distance must be a non-negative number"
    else do
      let normalizedUnit ← validateUnit unit ["km", "miles", "meters"] "km"
      let results ← withinLoop fromCoord normalizedUnit m 0 coordinates
      pure (List.insertionSort distLE results)
  | _ => .error "Max distance must be a non-negative number"

/-- The `coordinates.forEach` body of `getClosestCoordinate`: the running
state is `closestCoord` (`none` models `null`); `minDistance` starts at
`Infinity`, so the first element (whose distance is a real number, hence
below `Infinity`) is always taken, and afterwards `minDistance` always equals
the distance stored in `closestCoord`, so the `distance < minDistance` test is
a strict comparison against the stored distance. -/
noncomputable def closestLoop (fromCoord : JSInput β) (normalizedUnit : String) :
    Nat → Option (OutObj α) → List (JSInput α) → Except String (Option (OutObj α))
  | _, best, [] => .ok best
  | index, best, coord :: rest => do
    let o ← validateCoordinate coord ("coordinates[" ++ toString index ++ "]")
    let distance ← calculateDistance fromCoord coord (.str normalizedUnit)
    let take : Bool :=
      match best with
      | none => true
      | some b => decide (distance < b.distance)
    closestLoop fromCoord normalizedUnit (index + 1)
      (if take then some (spreadWithDistance o distance) else best) rest

/-- `getClosestCoordinate` from index.js: the empty-array test (returning
`null`) comes before unit validation. -/
noncomputable def getClosestCoordinate (fromCoord : JSInput β)
    (coordinates : List (JSInput α)) (unit : JSAtom) :
    Except String (Option (OutObj α)) := do
  let _ ← validateCoordinate fromCoord "fromCoord"
  match coordinates with
  | [] => pure none
  | _ => do
    let normalizedUnit ← validateUnit unit ["km", "miles", "meters"] "km"
    closestLoop fromCoord normalizedUnit 0 none coordinates

/-- The `coordinates.forEach` body of `getFurthestCoordinate`: `maxDistance`
starts at the sentinel `-1`, so the first element is taken iff its distance
exceeds `-1`; afterwards the stored distance is compared strictly. -/
noncomputable def furthestLoop (fromCoord : JSInput β) (normalizedUnit : String) :
    Nat → Option (OutObj α) → List (JSInput α) → Except String (Option (OutObj α))
  | _, best, [] => .ok best
  | index, best, coord :: rest => do
    let o ← validateCoordinate coord ("coordinates[" ++ toString index ++ "]")
    let distance ← calculateDistance fromCoord coord (.str normalizedUnit)
    let take : Bool :=
      match best with
      | none => decide ((-1 : ℝ) < distance)
      | some b => decide (b.distance < distance)
    furthestLoop fromCoord normalizedUnit (index + 1)
      (if take then some (spreadWithDistance o distance) else best) rest

/-- `getFurthestCoordinate` from index.js: the empty-array test (returning
`null`) comes before unit validation. -/
noncomputable def getFurthestCoordinate (fromCoord : JSInput β)
    (coordinates : List (JSInput α)) (unit : JSAtom) :
    Except String (Option (OutObj α)) := do
  let _ ← validateCoordinate fromCoord "fromCoord"
  match coordinates with
  | [] => pure none
  | _ => do
    let normalizedUnit ← validateUnit unit ["km", "miles", "meters"] "km"
    furthestLoop fromCoord normalizedUnit 0 none coordinates

/-- A polygon argument: either not an array at all, or an array of
coordinate-like values. -/
inductive ArrInput (α : Type) where
  | notArr (v : JSInput α)
  | arr (l : List (JSInput α))

/-- The `coordinates.forEach` validation loop of `calculateGeofenceArea`:
each element is validated with an index-qualified label; the first failure
aborts the call. -/
def validateAllCoords (label : String) : Nat → List (JSInput α) →
    Except String (List (JSObj α))
  | _, [] => .ok []
  | index, coord :: rest => do
    let o ← validateCoordinate coord (label ++ "[" ++ toString index ++ "]")
    let tail ← validateAllCoords label (index + 1) rest
    pure (o :: tail)

/-- Closing step of `calculateGeofenceArea`: if the first and last vertex
differ in `lat` or `lng` under the JavaScript `!==` comparison, a copy of the
first vertex is appended. -/
def closeRing (coords : List (JSObj α)) : List (JSObj α) :=
  match coords.head?, coords.getLast? with
  | some firstCoord, some lastCoord =>
    if firstCoord.lat.jneq lastCoord.lat || firstCoord.lng.jneq lastCoord.lng then
      coords ++ [firstCoord]
    else coords
  | _, _ => coords

/-- One summand of the spherical-excess accumulation in
`calculateGeofenceArea`, for edge `i` of the closed vertex list `cs` with
wrap-around modulus `n`. -/
noncomputable def areaTerm (cs : List Coordinate) (n i : Nat) : ℝ :=
  let ci := cs.getD i ⟨0, 0⟩
  let cj := cs.getD ((i + 1) % n) ⟨0, 0⟩
  toRadians (cj.lng - ci.lng) *
    (2 + Real.sin (toRadians ci.lat) + Real.sin (toRadians cj.lat))

/-- The accumulated raw area of `calculateGeofenceArea` over the closed
vertex list `cs` (n = cs.length - 1 because a closing vertex is present). -/
noncomputable def rawArea (cs : List Coordinate) : ℝ :=
  ∑ i ∈ Finset.range (cs.length - 1), areaTerm cs (cs.length - 1) i

/-- The conversion factor applied by the `switch` on the normalized area
unit in `calculateGeofenceArea`. -/
noncomputable def areaUnitFactor (u : String) : ℝ :=
  if u = "miles2" then 0.386102
  else if u = "meters2" then 1000000
  else 1

/-- `calculateGeofenceArea` from index.js. -/
noncomputable def calculateGeofenceArea (coordinates : ArrInput α) (unit : JSAtom) :
    Except String ℝ :=
  match coordinates with
  | .notArr _ => .error "Coordinates must be an array"
  | .arr l =>
    if l.length < 3 then .error "At least 3 coordinates are required to form a polygon"
    else do
      let os ← validateAllCoords "coordinates" 0 l
      let normalizedUnit ← validateUnit unit ["km2", "miles2", "meters2"] "km2"
      let cs := (closeRing os).map JSObj.toCoordinate
      pure (|rawArea cs| * 6371 * 6371 / 2 * areaUnitFactor normalizedUnit)

/-- The result object of `isCoordinateNearGeofence`. -/
structure NearResult where
  isNear : Bool
  distance : ℝ
  closestPoint : Coordinate

/-- Modelled from the spec: the closest point to `p` on the segment from `a`
to `b`, computed by the planar clamped-projection formula in lat/lng space
(the spec leaves the exact point-to-segment metric open; this is the planar
design choice it offers). -/
noncomputable def closestPointOnSegment (p a b : Coordinate) : Coordinate :=
  let dx := b.lat - a.lat
  let dy := b.lng - a.lng
  let len2 := dx * dx + dy * dy
  if len2 = 0 then a
  else
    let t := ((p.lat - a.lat) * dx + (p.lng - a.lng) * dy) / len2
    let tc := max 0 (min 1 t)
    ⟨a.lat + tc * dx, a.lng + tc * dy⟩

/-- Modelled from the spec: the distance from `p` to one polygon edge, namely
the haversine distance (in the requested unit) from `p` to the closest point
of the edge. -/
noncomputable def edgeDistance (normalizedUnit : String) (p a b : Coordinate) : ℝ :=
  haversineKm p (closestPointOnSegment p a b) * unitFactor normalizedUnit

/-- The edges of the polygon, pairing each vertex with its successor and
wrapping the last vertex back to the first (the closed-ring pairing of 4.4). -/
def ringEdges (l : List Coordinate) : List (Coordinate × Coordinate) :=
  match l with
  | [] => []
  | v :: vs => List.zip l (vs ++ [v])

/-- Modelled from the spec: the scan over the remaining edges keeping the
smallest distance seen so far and its closest point; a strictly smaller
distance replaces the current best, so the first edge attaining the minimum
wins. -/
noncomputable def nearScan (p : Coordinate) (normalizedUnit : String) :
    ℝ × Coordinate → List (Coordinate × Coordinate) → ℝ × Coordinate
  | best, [] => best
  | best, (a, b) :: rest =>
    let cp := closestPointOnSegment p a b
    let d := haversineKm p cp * unitFactor normalizedUnit
    nearScan p normalizedUnit (if d < best.1 then (d, cp) else best) rest

/-- Modelled from the spec: `isCoordinateNearGeofence` is declared in
index.d.ts (and described in section 4.5 of the specification) but its
implementation is not among the source files.  Per the spec it validates
`coord`, validates `geofence` exactly as `isCoordinateInGeofence` does
(sequence of at least 3 coordinates, index-qualified messages), validates
`maxDistance` as a non-negative number and the unit against the linear set,
then takes the global minimum of the point-to-segment distance over every
edge of the closed ring, returning `isNear = (distance <= maxDistance)`, the
minimum distance, and the closest point attaining it. -/
noncomputable def isCoordinateNearGeofence (coord : JSInput α)
    (geofence : ArrInput β) (maxDistance : JSAtom) (unit : JSAtom) :
    Except String NearResult := do
  let o ← validateCoordinate coord "coord"
  match geofence with
  | .notArr _ => .error "Geofence must be an array of coordinates"
  | .arr l =>
    if l.length < 3 then
      .error "At least 3 coordinates are required to form a geofence polygon"
    else do
      let os ← validateAllCoords "geofence" 0 l
      match maxDistance with
      | .num m =>
        if m.jlt (.fin 0) then .error "Max distance must be a non-negative number"
        else do
          let normalizedUnit ← validateUnit unit ["km", "miles", "meters"] "km"
          let p := o.toCoordinate
          match ringEdges (os.map JSObj.toCoordinate) with
          | [] =>
            -- unreachable: a validated geofence has at least 3 vertices
            .error "At least 3 coordinates are required to form a geofence polygon"
          | (a, b) :: rest =>
            let cp := closestPointOnSegment p a b
            let d := haversineKm p cp * unitFactor normalizedUnit
            let best := nearScan p normalizedUnit (d, cp) rest
            pure ⟨jleJNum best.1 m, best.1, best.2⟩
      | _ => .error "Max distance must be a non-negative number"

/-! ### Validity predicates and validation lemmas -/

/-- A primitive value that is a finite number within the closed interval
from `lo` to `hi`. -/
def validNum (lo hi : ℚ) : JSAtom → Bool
  | .num (.fin q) => decide (lo ≤ q) && decide (q ≤ hi)
  | _ => false

/-- A valid coordinate object in the sense of the spec data model: finite
numeric `lat` in [-90, 90] and finite numeric `lng` in [-180, 180]. -/
def isValidCoordObj (o : JSObj α) : Bool :=
  validNum (-90) 90 o.lat && validNum (-180) 180 o.lng

/-! ### Pure descriptions of the scanning loops -/

/-- The distance annotation computed for one element. -/
noncomputable def annDistance (fromC : Coordinate) (u : String) (o : JSObj α) : ℝ :=
  haversineKm fromC o.toCoordinate * unitFactor u

/-- The output record built for one element. -/
noncomputable def annotateObj (fromC : Coordinate) (u : String) (o : JSObj α) : OutObj α :=
  spreadWithDistance o (annDistance fromC u o)

/-- First-minimum fold: keeps the current best on ties, so the earliest
element attaining the minimum distance wins. -/
noncomputable def foldMin (b : OutObj α) : List (OutObj α) → OutObj α
  | [] => b
  | r :: rs => foldMin (if r.distance < b.distance then r else b) rs

/-- First-maximum fold: keeps the current best on ties, so the earliest
element attaining the maximum distance wins. -/
noncomputable def foldMax (b : OutObj α) : List (OutObj α) → OutObj α
  | [] => b
  | r :: rs => foldMax (if b.distance < r.distance then r else b) rs

/-- Option-level first-minimum scan, matching the `null` / `Infinity`
initial state of `getClosestCoordinate`. -/
noncomputable def optFoldMin : Option (OutObj α) → List (OutObj α) → Option (OutObj α)
  | best, [] => best
  | none, r :: rs => optFoldMin (some r) rs
  | some b, r :: rs => optFoldMin (some (if r.distance < b.distance then r else b)) rs

/-- Option-level first-maximum scan, matching the `null` / `-1` initial
state of `getFurthestCoordinate`. -/
noncomputable def optFoldMax : Option (OutObj α) → List (OutObj α) → Option (OutObj α)
  | best, [] => best
  | none, r :: rs => optFoldMax (if (-1 : ℝ) < r.distance then some r else none) rs
  | some b, r :: rs => optFoldMax (some (if b.distance < r.distance then r else b)) rs

/-- Records whose distance equals `d` (used to state stability). -/
noncomputable def distEqB (d : ℝ) (r : OutObj α) : Bool :=
  decide (r.distance = d)

/-- The candidate produced by one edge in the near-geofence scan, packaged as
an output record so the first-minimum machinery applies. -/
noncomputable def edgeOut (p : Coordinate) (u : String) (e : Coordinate × Coordinate) :
    OutObj Coordinate :=
  ⟨.undef, .undef, closestPointOnSegment p e.1 e.2, edgeDistance u p e.1 e.2⟩

/-- The running pair of the near-geofence scan, packaged likewise. -/
noncomputable def pairOut (best : ℝ × Coordinate) : OutObj Coordinate :=
  ⟨.undef, .undef, best.2, best.1⟩

/-! ### Validation-failure suffixes -/

/-- The label-independent outcome of `validateCoordinate`: `none` when the
input is accepted, otherwise the message suffix that the failing check
appends to the label. -/
def coordErrSuffix (c : JSInput α) : Option String :=
  match c with
  | .atom _ => some " must be an object with lat and lng properties"
  | .obj o =>
    match o.lat, o.lng with
    | .num la, .num lo =>
      if la.jlt (.fin (-90)) || (JNum.fin 90).jlt la then
        some " latitude must be between -90 and 90 degrees"
      else if lo.jlt (.fin (-180)) || (JNum.fin 180).jlt lo then
        some " longitude must be between -180 and 180 degrees"
      else none
    | _, _ => some " must have numeric lat and lng properties"

/-! ### The near-geofence pure result -/

/-- Modelled from the spec: the pure value computed by
`isCoordinateNearGeofence` once all validation has passed — the scan over
the closed ring of edges with the first edge as the initial best.  The nil
branch is unreachable for a validated geofence. -/
noncomputable def nearResultPure (p : Coordinate) (u : String) (m : JNum)
    (vs : List Coordinate) : NearResult :=
  match ringEdges vs with
  | [] => ⟨false, 0, ⟨0, 0⟩⟩
  | (a, b) :: rest =>
    let cp := closestPointOnSegment p a b
    let d := haversineKm p cp * unitFactor u
    let best := nearScan p u (d, cp) rest
    ⟨jleJNum best.1 m, best.1, best.2⟩

theorem validNum_iff (lo hi : ℚ) (v : JSAtom) :
    validNum lo hi v = true ↔ ∃ q, v = .num (.fin q) ∧ lo ≤ q ∧ q ≤ hi := by
  cases v with
  | num n => cases n <;> simp [validNum]
  | str s => simp [validNum]
  | boolean b => simp [validNum]
  | nullV => simp [validNum]
  | undef => simp [validNum]

theorem validateCoordinate_of_valid (o : JSObj α) (h : isValidCoordObj o = true)
    (label : String) : validateCoordinate (.obj o) label = .ok o := by
  obtain ⟨la, lo, df, pl⟩ := o
  unfold isValidCoordObj at h
  rw [Bool.and_eq_true] at h
  obtain ⟨qa, hla, h1a, h2a⟩ := (validNum_iff _ _ _).mp h.1
  obtain ⟨qb, hlb, h1b, h2b⟩ := (validNum_iff _ _ _).mp h.2
  simp only at hla hlb
  subst hla
  subst hlb
  unfold validateCoordinate
  have e1 : (JNum.fin qa).jlt (.fin (-90)) = false := by
    simp only [JNum.jlt, decide_eq_false_iff_not]
    linarith
  have e2 : (JNum.fin 90).jlt (.fin qa) = false := by
    simp only [JNum.jlt, decide_eq_false_iff_not]
    linarith
  have e3 : (JNum.fin qb).jlt (.fin (-180)) = false := by
    simp only [JNum.jlt, decide_eq_false_iff_not]
    linarith
  have e4 : (JNum.fin 180).jlt (.fin qb) = false := by
    simp only [JNum.jlt, decide_eq_false_iff_not]
    linarith
  simp [e1, e2, e3, e4]

theorem validateUnit_dist_mem (unit : JSAtom) (u : String)
    (h : validateUnit unit ["km", "miles", "meters"] "km" = .ok u) :
    u ∈ ["km", "miles", "meters"] := by
  unfold validateUnit at h
  by_cases ht : unit.truthy
  · rw [if_neg (by simp [ht])] at h
    cases unit with
    | str s =>
      simp only at h
      by_cases hc : List.contains ["km", "miles", "meters"] (jsToLower s)
      · rw [if_pos hc] at h
        cases h
        simpa using hc
      · rw [if_neg hc] at h
        cases h
    | num n => cases h
    | boolean b => cases h
    | nullV => cases h
    | undef => cases h
  · rw [if_pos (by simp [ht])] at h
    cases h
    simp

theorem validateUnit_dist_idem (unit : JSAtom) (u : String)
    (h : validateUnit unit ["km", "miles", "meters"] "km" = .ok u) :
    validateUnit (.str u) ["km", "miles", "meters"] "km" = .ok u := by
  have hm := validateUnit_dist_mem unit u h
  simp at hm
  rcases hm with h1 | h1 | h1 <;> (subst h1; rfl)

theorem calculateDistance_of_valid (o1 : JSObj α) (o2 : JSObj β) (u : String)
    (h1 : isValidCoordObj o1 = true) (h2 : isValidCoordObj o2 = true)
    (hu : validateUnit (.str u) ["km", "miles", "meters"] "km" = .ok u) :
    calculateDistance (.obj o1) (.obj o2) (.str u) =
      .ok (haversineKm o1.toCoordinate o2.toCoordinate * unitFactor u) := by
  unfold calculateDistance
  rw [validateCoordinate_of_valid o1 h1, validateCoordinate_of_valid o2 h2, hu]
  rfl

/-! ### Real-analysis facts about the haversine formula -/

theorem haversineA_comm (c1 c2 : Coordinate) : haversineA c1 c2 = haversineA c2 c1 := by
  unfold haversineA toRadians
  have h1 : (c1.lat - c2.lat) * (Real.pi / 180) / 2 =
      -((c2.lat - c1.lat) * (Real.pi / 180) / 2) := by ring
  have h2 : (c1.lng - c2.lng) * (Real.pi / 180) / 2 =
      -((c2.lng - c1.lng) * (Real.pi / 180) / 2) := by ring
  rw [h1, h2]
  simp only [Real.sin_neg]
  ring

theorem haversineA_self (c : Coordinate) : haversineA c c = 0 := by
  unfold haversineA toRadians
  simp

theorem haversineKm_comm (c1 c2 : Coordinate) : haversineKm c1 c2 = haversineKm c2 c1 := by
  unfold haversineKm
  rw [haversineA_comm]

theorem atan2_zero_one : atan2 0 1 = 0 := by
  unfold atan2
  rw [if_pos one_pos]
  simp

theorem haversineKm_self (c : Coordinate) : haversineKm c c = 0 := by
  unfold haversineKm
  rw [haversineA_self]
  simp [atan2_zero_one]

theorem atan2_nonneg {y x : ℝ} (hy : 0 ≤ y) (hx : 0 ≤ x) : 0 ≤ atan2 y x := by
  unfold atan2
  split_ifs with h1 h2 h3 h4 h5
  · have hd : (0 : ℝ) ≤ y / x := div_nonneg hy (le_of_lt h1)
    calc (0 : ℝ) = Real.arctan 0 := Real.arctan_zero.symm
    _ ≤ Real.arctan (y / x) := Real.arctan_strictMono.monotone hd
  · exact absurd h2.1 (not_lt.mpr hx)
  · exact absurd h3.1 (not_lt.mpr hx)
  · have := Real.pi_pos
    linarith
  · exact absurd h5.2 (not_lt.mpr hy)
  · exact le_refl 0

theorem haversineKm_nonneg (c1 c2 : Coordinate) : 0 ≤ haversineKm c1 c2 := by
  unfold haversineKm
  have h := atan2_nonneg (Real.sqrt_nonneg (haversineA c1 c2))
    (Real.sqrt_nonneg (1 - haversineA c1 c2))
  have h2 : (0 : ℝ) ≤ 2 * atan2 (Real.sqrt (haversineA c1 c2))
      (Real.sqrt (1 - haversineA c1 c2)) := by linarith
  have h3 : (0 : ℝ) ≤ 6371 := by norm_num
  exact mul_nonneg h3 h2

theorem unitFactor_pos (u : String) : 0 < unitFactor u := by
  unfold unitFactor
  split_ifs <;> norm_num

theorem annotateObj_distance (fromC : Coordinate) (u : String) (o : JSObj α) :
    (annotateObj fromC u o).distance = annDistance fromC u o :=
  rfl

theorem annDistance_eq (fromC : Coordinate) (u : String) (o : JSObj α) :
    annDistance fromC u o = haversineKm fromC o.toCoordinate * unitFactor u :=
  rfl

theorem foldMin_cons (b r : OutObj α) (rs : List (OutObj α)) :
    foldMin b (r :: rs) = foldMin (if r.distance < b.distance then r else b) rs :=
  rfl

theorem foldMax_cons (b r : OutObj α) (rs : List (OutObj α)) :
    foldMax b (r :: rs) = foldMax (if b.distance < r.distance then r else b) rs :=
  rfl

/-- `foldMin b l` is the first minimum of `b :: l`: everything before it in
`b :: l` is strictly greater, everything after it is at least as large. -/
theorem foldMin_spec (l : List (OutObj α)) : ∀ b : OutObj α,
    ∃ l1 l2, b :: l = l1 ++ foldMin b l :: l2 ∧
      (∀ x ∈ l1, (foldMin b l).distance < x.distance) ∧
      (∀ x ∈ l2, (foldMin b l).distance ≤ x.distance) := by
  induction l with
  | nil =>
    intro b
    exact ⟨[], [], rfl, by simp, by simp⟩
  | cons r rs ih =>
    intro b
    by_cases hlt : r.distance < b.distance
    · have hfold : foldMin b (r :: rs) = foldMin r rs := by
        rw [foldMin_cons, if_pos hlt]
      obtain ⟨l1, l2, hsplit, hl1, hl2⟩ := ih r
      have hle : (foldMin r rs).distance ≤ r.distance := by
        rcases l1 with _ | ⟨c, l1'⟩
        · simp only [List.nil_append] at hsplit
          injection hsplit with h1 h2
          rw [← h1]
        · simp only [List.cons_append] at hsplit
          injection hsplit with h1 h2
          have hc := hl1 c (List.mem_cons_self c l1')
          rw [← h1] at hc
          exact le_of_lt hc
      refine ⟨b :: l1, l2, ?_, ?_, ?_⟩
      · rw [hfold, List.cons_append]
        exact congrArg (List.cons b) hsplit
      · intro x hx
        rcases List.mem_cons.mp hx with hx | hx
        · subst hx
          rw [hfold]
          exact lt_of_le_of_lt hle hlt
        · rw [hfold]
          exact hl1 x hx
      · intro x hx
        rw [hfold]
        exact hl2 x hx
    · have hble : b.distance ≤ r.distance := not_lt.mp hlt
      have hfold : foldMin b (r :: rs) = foldMin b rs := by
        rw [foldMin_cons, if_neg hlt]
      obtain ⟨l1, l2, hsplit, hl1, hl2⟩ := ih b
      rcases l1 with _ | ⟨c, l1'⟩
      · simp only [List.nil_append] at hsplit
        injection hsplit with h1 h2
        refine ⟨[], r :: l2, ?_, by simp, ?_⟩
        · rw [hfold, List.nil_append, ← h1, ← h2]
        · intro x hx
          rcases List.mem_cons.mp hx with hx | hx
          · subst hx
            rw [hfold, ← h1]
            exact hble
          · rw [hfold]
            exact hl2 x hx
      · simp only [List.cons_append] at hsplit
        injection hsplit with h1 h2
        have hfb : (foldMin b rs).distance < b.distance := by
          have hc := hl1 c (List.mem_cons_self c l1')
          rw [← h1] at hc
          exact hc
        refine ⟨b :: r :: l1', l2, ?_, ?_, ?_⟩
        · rw [hfold]
          simp only [List.cons_append]
          rw [← h2]
        · intro x hx
          rcases List.mem_cons.mp hx with hx | hx
          · subst hx
            rw [hfold]
            exact hfb
          · rcases List.mem_cons.mp hx with hx' | hx'
            · subst hx'
              rw [hfold]
              exact lt_of_lt_of_le hfb hble
            · rw [hfold]
              exact hl1 x (List.mem_cons_of_mem c hx')
        · intro x hx
          rw [hfold]
          exact hl2 x hx

/-- `foldMax b l` is the first maximum of `b :: l`: everything before it in
`b :: l` is strictly smaller, everything after it is at most as large. -/
theorem foldMax_spec (l : List (OutObj α)) : ∀ b : OutObj α,
    ∃ l1 l2, b :: l = l1 ++ foldMax b l :: l2 ∧
      (∀ x ∈ l1, x.distance < (foldMax b l).distance) ∧
      (∀ x ∈ l2, x.distance ≤ (foldMax b l).distance) := by
  induction l with
  | nil =>
    intro b
    exact ⟨[], [], rfl, by simp, by simp⟩
  | cons r rs ih =>
    intro b
    by_cases hlt : b.distance < r.distance
    · have hfold : foldMax b (r :: rs) = foldMax r rs := by
        rw [foldMax_cons, if_pos hlt]
      obtain ⟨l1, l2, hsplit, hl1, hl2⟩ := ih r
      have hle : r.distance ≤ (foldMax r rs).distance := by
        rcases l1 with _ | ⟨c, l1'⟩
        · simp only [List.nil_append] at hsplit
          injection hsplit with h1 h2
          rw [← h1]
        · simp only [List.cons_append] at hsplit
          injection hsplit with h1 h2
          have hc := hl1 c (List.mem_cons_self c l1')
          rw [← h1] at hc
          exact le_of_lt hc
      refine ⟨b :: l1, l2, ?_, ?_, ?_⟩
      · rw [hfold, List.cons_append]
        exact congrArg (List.cons b) hsplit
      · intro x hx
        rcases List.mem_cons.mp hx with hx | hx
        · subst hx
          rw [hfold]
          exact lt_of_lt_of_le hlt hle
        · rw [hfold]
          exact hl1 x hx
      · intro x hx
        rw [hfold]
        exact hl2 x hx
    · have hble : r.distance ≤ b.distance := not_lt.mp hlt
      have hfold : foldMax b (r :: rs) = foldMax b rs := by
        rw [foldMax_cons, if_neg hlt]
      obtain ⟨l1, l2, hsplit, hl1, hl2⟩ := ih b
      rcases l1 with _ | ⟨c, l1'⟩
      · simp only [List.nil_append] at hsplit
        injection hsplit with h1 h2
        refine ⟨[], r :: l2, ?_, by simp, ?_⟩
        · rw [hfold, List.nil_append, ← h1, ← h2]
        · intro x hx
          rcases List.mem_cons.mp hx with hx | hx
          · subst hx
            rw [hfold, ← h1]
            exact hble
          · rw [hfold]
            exact hl2 x hx
      · simp only [List.cons_append] at hsplit
        injection hsplit with h1 h2
        have hfb : b.distance < (foldMax b rs).distance := by
          have hc := hl1 c (List.mem_cons_self c l1')
          rw [← h1] at hc
          exact hc
        refine ⟨b :: r :: l1', l2, ?_, ?_, ?_⟩
        · rw [hfold]
          simp only [List.cons_append]
          rw [← h2]
        · intro x hx
          rcases List.mem_cons.mp hx with hx | hx
          · subst hx
            rw [hfold]
            exact hfb
          · rcases List.mem_cons.mp hx with hx' | hx'
            · subst hx'
              rw [hfold]
              exact lt_of_le_of_lt hble hfb
            · rw [hfold]
              exact hl1 x (List.mem_cons_of_mem c hx')
        · intro x hx
          rw [hfold]
          exact hl2 x hx

theorem optFoldMin_some (l : List (OutObj α)) :
    ∀ b, optFoldMin (some b) l = some (foldMin b l) := by
  induction l with
  | nil => intro b; rfl
  | cons r rs ih =>
    intro b
    rw [show optFoldMin (some b) (r :: rs) =
      optFoldMin (some (if r.distance < b.distance then r else b)) rs from rfl]
    rw [foldMin_cons]
    exact ih _

theorem optFoldMax_some (l : List (OutObj α)) :
    ∀ b, optFoldMax (some b) l = some (foldMax b l) := by
  induction l with
  | nil => intro b; rfl
  | cons r rs ih =>
    intro b
    rw [show optFoldMax (some b) (r :: rs) =
      optFoldMax (some (if b.distance < r.distance then r else b)) rs from rfl]
    rw [foldMax_cons]
    exact ih _

theorem optFoldMin_none (r : OutObj α) (rs : List (OutObj α)) :
    optFoldMin none (r :: rs) = some (foldMin r rs) := by
  rw [show optFoldMin none (r :: rs) = optFoldMin (some r) rs from rfl]
  exact optFoldMin_some rs r

theorem optFoldMax_none (r : OutObj α) (rs : List (OutObj α)) (h : (-1 : ℝ) < r.distance) :
    optFoldMax none (r :: rs) = some (foldMax r rs) := by
  rw [show optFoldMax none (r :: rs) =
    optFoldMax (if (-1 : ℝ) < r.distance then some r else none) rs from rfl]
  rw [if_pos h]
  exact optFoldMax_some rs r

/-! ### The loops reduce to the pure scans on valid input -/

theorem validateAllCoords_of_valid (label : String) (os : List (JSObj α))
    (hos : ∀ o ∈ os, isValidCoordObj o = true) :
    ∀ i : ℕ, validateAllCoords label i (os.map .obj) = .ok os := by
  induction os with
  | nil => intro i; rfl
  | cons o os' ih =>
    intro i
    have ho : isValidCoordObj o = true := hos o (List.mem_cons_self o os')
    have hos' : ∀ x ∈ os', isValidCoordObj x = true :=
      fun x hx => hos x (List.mem_cons_of_mem o hx)
    simp only [List.map_cons, validateAllCoords]
    rw [validateCoordinate_of_valid o ho, ih hos' (i + 1)]
    rfl

theorem closestLoop_eq (fo : JSObj β) (hfo : isValidCoordObj fo = true) (u : String)
    (hu : validateUnit (.str u) ["km", "miles", "meters"] "km" = .ok u)
    (os : List (JSObj α)) (hos : ∀ o ∈ os, isValidCoordObj o = true) :
    ∀ (i : ℕ) (best : Option (OutObj α)),
      closestLoop (.obj fo) u i best (os.map .obj) =
        .ok (optFoldMin best (os.map (annotateObj fo.toCoordinate u))) := by
  induction os with
  | nil => intro i best; simp [closestLoop, optFoldMin]
  | cons o os' ih =>
    intro i best
    have ho : isValidCoordObj o = true := hos o (List.mem_cons_self o os')
    have hos' : ∀ x ∈ os', isValidCoordObj x = true :=
      fun x hx => hos x (List.mem_cons_of_mem o hx)
    simp only [List.map_cons, closestLoop]
    rw [validateCoordinate_of_valid o ho, calculateDistance_of_valid fo o u hfo ho hu]
    simp only [Bind.bind, Except.bind]
    rw [ih hos']
    congr 1
    cases best with
    | none =>
      simp only [optFoldMin]
      rfl
    | some b =>
      simp only [optFoldMin, annotateObj_distance, annDistance_eq]
      by_cases hc : haversineKm fo.toCoordinate o.toCoordinate * unitFactor u < b.distance
      · rw [if_pos (by exact decide_eq_true hc), if_pos hc]
        rfl
      · rw [if_neg (by simp [hc]), if_neg hc]

theorem furthestLoop_eq (fo : JSObj β) (hfo : isValidCoordObj fo = true) (u : String)
    (hu : validateUnit (.str u) ["km", "miles", "meters"] "km" = .ok u)
    (os : List (JSObj α)) (hos : ∀ o ∈ os, isValidCoordObj o = true) :
    ∀ (i : ℕ) (best : Option (OutObj α)),
      furthestLoop (.obj fo) u i best (os.map .obj) =
        .ok (optFoldMax best (os.map (annotateObj fo.toCoordinate u))) := by
  induction os with
  | nil => intro i best; simp [furthestLoop, optFoldMax]
  | cons o os' ih =>
    intro i best
    have ho : isValidCoordObj o = true := hos o (List.mem_cons_self o os')
    have hos' : ∀ x ∈ os', isValidCoordObj x = true :=
      fun x hx => hos x (List.mem_cons_of_mem o hx)
    simp only [List.map_cons, furthestLoop]
    rw [validateCoordinate_of_valid o ho, calculateDistance_of_valid fo o u hfo ho hu]
    simp only [Bind.bind, Except.bind]
    rw [ih hos']
    congr 1
    cases best with
    | none =>
      simp only [optFoldMax, annotateObj_distance, annDistance_eq]
      by_cases hc : (-1 : ℝ) < haversineKm fo.toCoordinate o.toCoordinate * unitFactor u
      · rw [if_pos (by exact decide_eq_true hc), if_pos hc]
        rfl
      · rw [if_neg (by simp [hc]), if_neg hc]
    | some b =>
      simp only [optFoldMax, annotateObj_distance, annDistance_eq]
      by_cases hc : b.distance < haversineKm fo.toCoordinate o.toCoordinate * unitFactor u
      · rw [if_pos (by exact decide_eq_true hc), if_pos hc]
        rfl
      · rw [if_neg (by simp [hc]), if_neg hc]

theorem withinLoop_eq (fo : JSObj β) (hfo : isValidCoordObj fo = true) (u : String)
    (hu : validateUnit (.str u) ["km", "miles", "meters"] "km" = .ok u) (m : JNum)
    (os : List (JSObj α)) (hos : ∀ o ∈ os, isValidCoordObj o = true) :
    ∀ i : ℕ,
      withinLoop (.obj fo) u m i (os.map .obj) =
        .ok ((os.map (annotateObj fo.toCoordinate u)).filter
          (fun r => jleJNum r.distance m)) := by
  induction os with
  | nil => intro i; rfl
  | cons o os' ih =>
    intro i
    have ho : isValidCoordObj o = true := hos o (List.mem_cons_self o os')
    have hos' : ∀ x ∈ os', isValidCoordObj x = true :=
      fun x hx => hos x (List.mem_cons_of_mem o hx)
    simp only [List.map_cons, withinLoop]
    rw [validateCoordinate_of_valid o ho, calculateDistance_of_valid fo o u hfo ho hu]
    simp only [Bind.bind, Except.bind]
    rw [ih hos']
    simp only [Bind.bind, Except.bind, List.filter_cons, annotateObj_distance, annDistance_eq]
    by_cases hc : jleJNum (haversineKm fo.toCoordinate o.toCoordinate * unitFactor u) m = true
    · rw [if_pos hc, if_pos hc]
      rfl
    · rw [if_neg hc, if_neg hc]
      rfl

/-! ### Top-level reductions on valid input -/

theorem getClosestCoordinate_valid_eq (fo : JSObj β) (hfo : isValidCoordObj fo = true)
    (unit : JSAtom) (u : String)
    (hu : validateUnit unit ["km", "miles", "meters"] "km" = .ok u)
    (o1 : JSObj α) (os : List (JSObj α))
    (hos : ∀ o ∈ o1 :: os, isValidCoordObj o = true) :
    getClosestCoordinate (.obj fo) ((o1 :: os).map .obj) unit =
      .ok (optFoldMin none ((o1 :: os).map (annotateObj fo.toCoordinate u))) := by
  have hu' := validateUnit_dist_idem unit u hu
  unfold getClosestCoordinate
  rw [validateCoordinate_of_valid fo hfo]
  simp only [Bind.bind, Except.bind, List.map_cons]
  rw [hu]
  simp only [Bind.bind, Except.bind]
  have := closestLoop_eq fo hfo u hu' (o1 :: os) hos 0 none
  simp only [List.map_cons] at this
  exact this

theorem getFurthestCoordinate_valid_eq (fo : JSObj β) (hfo : isValidCoordObj fo = true)
    (unit : JSAtom) (u : String)
    (hu : validateUnit unit ["km", "miles", "meters"] "km" = .ok u)
    (o1 : JSObj α) (os : List (JSObj α))
    (hos : ∀ o ∈ o1 :: os, isValidCoordObj o = true) :
    getFurthestCoordinate (.obj fo) ((o1 :: os).map .obj) unit =
      .ok (optFoldMax none ((o1 :: os).map (annotateObj fo.toCoordinate u))) := by
  have hu' := validateUnit_dist_idem unit u hu
  unfold getFurthestCoordinate
  rw [validateCoordinate_of_valid fo hfo]
  simp only [Bind.bind, Except.bind, List.map_cons]
  rw [hu]
  simp only [Bind.bind, Except.bind]
  have := furthestLoop_eq fo hfo u hu' (o1 :: os) hos 0 none
  simp only [List.map_cons] at this
  exact this

theorem getCoordinatesWithinDistance_valid_eq (fo : JSObj β)
    (hfo : isValidCoordObj fo = true) (unit : JSAtom) (u : String)
    (hu : validateUnit unit ["km", "miles", "meters"] "km" = .ok u)
    (m : JNum) (hm : m.jlt (.fin 0) = false)
    (os : List (JSObj α)) (hos : ∀ o ∈ os, isValidCoordObj o = true) :
    getCoordinatesWithinDistance (.obj fo) (os.map .obj) (.num m) unit =
      .ok (List.insertionSort distLE
        ((os.map (annotateObj fo.toCoordinate u)).filter
          (fun r => jleJNum r.distance m))) := by
  have hu' := validateUnit_dist_idem unit u hu
  unfold getCoordinatesWithinDistance
  rw [validateCoordinate_of_valid fo hfo]
  simp only [Bind.bind, Except.bind]
  rw [if_neg (by simp [hm])]
  rw [hu]
  simp only [Bind.bind, Except.bind]
  rw [withinLoop_eq fo hfo u hu' m os hos 0]
  rfl

theorem calculateGeofenceArea_valid_eq (unit : JSAtom) (u : String)
    (hu : validateUnit unit ["km2", "miles2", "meters2"] "km2" = .ok u)
    (os : List (JSObj α)) (hos : ∀ o ∈ os, isValidCoordObj o = true)
    (hlen : ¬ (os.map JSInput.obj).length < 3) :
    calculateGeofenceArea (.arr (os.map .obj)) unit =
      .ok (|rawArea ((closeRing os).map JSObj.toCoordinate)| * 6371 * 6371 / 2 *
        areaUnitFactor u) := by
  simp only [calculateGeofenceArea]
  rw [if_neg hlen]
  rw [validateAllCoords_of_valid "coordinates" os hos 0]
  simp only [Bind.bind, Except.bind]
  rw [hu]
  rfl

theorem filter_orderedInsert_eq (d : ℝ) (r : OutObj α) (hr : r.distance = d) :
    ∀ l : List (OutObj α),
      (List.orderedInsert distLE r l).filter (distEqB d) = r :: l.filter (distEqB d) := by
  intro l
  induction l with
  | nil => simp [List.orderedInsert, distEqB, hr]
  | cons x xs ih =>
    by_cases hle : distLE r x
    · rw [List.orderedInsert, if_pos hle]
      simp [List.filter_cons, distEqB, hr]
    · rw [List.orderedInsert, if_neg hle]
      have hx : distEqB d x = false := by
        simp only [distEqB, decide_eq_false_iff_not]
        intro hxd
        exact hle (le_of_eq (by rw [hxd, hr]))
      simp [List.filter_cons, hx, ih]

theorem filter_orderedInsert_ne (d : ℝ) (r : OutObj α) (hr : r.distance ≠ d) :
    ∀ l : List (OutObj α),
      (List.orderedInsert distLE r l).filter (distEqB d) = l.filter (distEqB d) := by
  intro l
  have hrB : distEqB d r = false := by simp [distEqB, hr]
  induction l with
  | nil => simp [List.orderedInsert, hrB]
  | cons x xs ih =>
    by_cases hle : distLE r x
    · rw [List.orderedInsert, if_pos hle]
      simp [List.filter_cons, hrB]
    · rw [List.orderedInsert, if_neg hle]
      simp only [List.filter_cons]
      rw [ih]

theorem filter_insertionSort (d : ℝ) (l : List (OutObj α)) :
    (List.insertionSort distLE l).filter (distEqB d) = l.filter (distEqB d) := by
  induction l with
  | nil => rfl
  | cons x xs ih =>
    rw [List.insertionSort]
    by_cases hx : x.distance = d
    · rw [filter_orderedInsert_eq d x hx, ih]
      simp [List.filter_cons, distEqB, hx]
    · rw [filter_orderedInsert_ne d x hx, ih]
      simp [List.filter_cons, distEqB, hx]

theorem foldMin_min_mem (b : OutObj α) (l : List (OutObj α)) :
    foldMin b l ∈ b :: l ∧ ∀ x ∈ b :: l, (foldMin b l).distance ≤ x.distance := by
  obtain ⟨l1, l2, hsplit, hl1, hl2⟩ := foldMin_spec l b
  constructor
  · rw [hsplit]
    simp
  · intro x hx
    rw [hsplit] at hx
    rcases List.mem_append.mp hx with hx | hx
    · exact le_of_lt (hl1 x hx)
    · rcases List.mem_cons.mp hx with hx | hx
      · rw [hx]
      · exact hl2 x hx

theorem foldMax_max_mem (b : OutObj α) (l : List (OutObj α)) :
    foldMax b l ∈ b :: l ∧ ∀ x ∈ b :: l, x.distance ≤ (foldMax b l).distance := by
  obtain ⟨l1, l2, hsplit, hl1, hl2⟩ := foldMax_spec l b
  constructor
  · rw [hsplit]
    simp
  · intro x hx
    rw [hsplit] at hx
    rcases List.mem_append.mp hx with hx | hx
    · exact le_of_lt (hl1 x hx)
    · rcases List.mem_cons.mp hx with hx | hx
      · rw [hx]
      · exact hl2 x hx

theorem edgeOut_distance (p : Coordinate) (u : String) (e : Coordinate × Coordinate) :
    (edgeOut p u e).distance = haversineKm p (closestPointOnSegment p e.1 e.2) * unitFactor u :=
  rfl

theorem pairOut_distance (x : ℝ × Coordinate) : (pairOut x).distance = x.1 :=
  rfl

theorem nearScan_eq_foldMin (p : Coordinate) (u : String) :
    ∀ (edges : List (Coordinate × Coordinate)) (best : ℝ × Coordinate),
      nearScan p u best edges =
        ((foldMin (pairOut best) (edges.map (edgeOut p u))).distance,
          (foldMin (pairOut best) (edges.map (edgeOut p u))).payload) := by
  intro edges
  induction edges with
  | nil =>
    intro best
    simp [nearScan, foldMin, pairOut]
  | cons e rest ih =>
    intro best
    obtain ⟨a, b⟩ := e
    rw [show nearScan p u best ((a, b) :: rest) =
      nearScan p u (if haversineKm p (closestPointOnSegment p a b) * unitFactor u < best.1
        then (haversineKm p (closestPointOnSegment p a b) * unitFactor u,
          closestPointOnSegment p a b)
        else best) rest from rfl]
    rw [List.map_cons, foldMin_cons]
    rw [ih]
    by_cases hc : haversineKm p (closestPointOnSegment p a b) * unitFactor u < best.1
    · rw [if_pos hc, if_pos (by rw [edgeOut_distance, pairOut_distance]; exact hc)]
      rfl
    · rw [if_neg hc, if_neg (by rw [edgeOut_distance, pairOut_distance]; exact hc)]

/-! ### Further helpers for the claim theorems -/

theorem calculateDistance_valid_eq (o1 : JSObj α) (o2 : JSObj β) (unit : JSAtom)
    (u : String) (h1 : isValidCoordObj o1 = true) (h2 : isValidCoordObj o2 = true)
    (hu : validateUnit unit ["km", "miles", "meters"] "km" = .ok u) :
    calculateDistance (.obj o1) (.obj o2) unit =
      .ok (haversineKm o1.toCoordinate o2.toCoordinate * unitFactor u) := by
  unfold calculateDistance
  rw [validateCoordinate_of_valid o1 h1, validateCoordinate_of_valid o2 h2, hu]
  rfl

theorem annDistance_nonneg (fromC : Coordinate) (u : String) (o : JSObj α) :
    0 ≤ annDistance fromC u o :=
  mul_nonneg (haversineKm_nonneg _ _) (le_of_lt (unitFactor_pos u))

/-- A range check of the form used by `validateCoordinate` that evaluates to
false forces a non-NaN value to be finite and inside the bounds. -/
theorem jlt_range_ok (lo hi : ℚ) (n : JNum)
    (h : (n.jlt (.fin lo) || (JNum.fin hi).jlt n) = false) (hn : n ≠ .nan) :
    ∃ q, n = .fin q ∧ lo ≤ q ∧ q ≤ hi := by
  cases n with
  | nan => exact absurd rfl hn
  | posInf => simp [JNum.jlt] at h
  | negInf => simp [JNum.jlt] at h
  | fin q =>
    simp only [JNum.jlt, Bool.or_eq_false_iff, decide_eq_false_iff_not] at h
    exact ⟨q, rfl, not_lt.mp h.1, not_lt.mp h.2⟩

/-! ### C2 -/

/-- C2 (amended): every input on which `validateCoordinate` returns without
raising is an object whose `lat` and `lng` fields are JavaScript numbers, and
whenever such a field is not NaN it is a finite number within the spec range
([-90, 90] for latitude, [-180, 180] for longitude).  NaN fields, however, are
also accepted, because the JavaScript range comparisons are false for NaN —
this is the one deviation from the claim as stated. -/
theorem c2_accepted_coordinate_ranges (c : JSInput α) (label : String) (o : JSObj α)
    (h : validateCoordinate c label = .ok o) :
    c = .obj o ∧
    (∃ nlat, o.lat = .num nlat ∧
      (nlat ≠ .nan → ∃ q, nlat = .fin q ∧ -90 ≤ q ∧ q ≤ 90)) ∧
    (∃ nlng, o.lng = .num nlng ∧
      (nlng ≠ .nan → ∃ q, nlng = .fin q ∧ -180 ≤ q ∧ q ≤ 180)) := by
  cases c with
  | atom v => exact absurd h (by simp [validateCoordinate])
  | obj o' =>
    obtain ⟨la, lo, df, pl⟩ := o'
    cases la with
    | num nla =>
      cases lo with
      | num nlo =>
        cases h1 : (nla.jlt (.fin (-90)) || (JNum.fin 90).jlt nla) with
        | true =>
          simp only [validateCoordinate] at h
          rw [h1] at h
          simp at h
        | false =>
          cases h2 : (nlo.jlt (.fin (-180)) || (JNum.fin 180).jlt nlo) with
          | true =>
            simp only [validateCoordinate] at h
            rw [h1, h2] at h
            simp at h
          | false =>
            simp only [validateCoordinate] at h
            rw [h1, h2] at h
            simp only [Bool.false_eq_true, if_false, Except.ok.injEq] at h
            subst h
            exact ⟨rfl, ⟨nla, rfl, jlt_range_ok (-90) 90 nla h1⟩,
              ⟨nlo, rfl, jlt_range_ok (-180) 180 nlo h2⟩⟩
      | str s => exact absurd h (by simp [validateCoordinate])
      | boolean b => exact absurd h (by simp [validateCoordinate])
      | nullV => exact absurd h (by simp [validateCoordinate])
      | undef => exact absurd h (by simp [validateCoordinate])
    | str s => exact absurd h (by simp [validateCoordinate])
    | boolean b => exact absurd h (by simp [validateCoordinate])
    | nullV => exact absurd h (by simp [validateCoordinate])
    | undef => exact absurd h (by simp [validateCoordinate])

/-- C2 counterexample: an object with `lat = NaN` is accepted by
`validateCoordinate` (both JavaScript range comparisons are false for NaN),
yet NaN is not a finite number in [-90, 90] (`validNum` is the finite-range
predicate of the data model). -/
theorem c2_accepted_coordinate_ranges_counterexample :
    validateCoordinate
        (JSInput.obj (⟨.num .nan, .num (.fin 0), none, ()⟩ : JSObj Unit)) "coordinate" =
      .ok ⟨.num .nan, .num (.fin 0), none, ()⟩ ∧
    validNum (-90) 90 (JSAtom.num .nan) = false :=
  ⟨rfl, rfl⟩

/-- C2 witness: a plainly valid coordinate object is accepted and its fields
satisfy the range bounds. -/
theorem c2_accepted_coordinate_ranges_witness :
    (JSInput.obj (⟨.num (.fin 10), .num (.fin 20), none, ()⟩ : JSObj Unit) =
      .obj ⟨.num (.fin 10), .num (.fin 20), none, ()⟩) ∧
    (∃ nlat, (⟨.num (.fin 10), .num (.fin 20), none, ()⟩ : JSObj Unit).lat = .num nlat ∧
      (nlat ≠ .nan → ∃ q, nlat = .fin q ∧ -90 ≤ q ∧ q ≤ 90)) ∧
    (∃ nlng, (⟨.num (.fin 10), .num (.fin 20), none, ()⟩ : JSObj Unit).lng = .num nlng ∧
      (nlng ≠ .nan → ∃ q, nlng = .fin q ∧ -180 ≤ q ∧ q ≤ 180)) :=
  c2_accepted_coordinate_ranges
    (JSInput.obj ⟨.num (.fin 10), .num (.fin 20), none, ()⟩) "coordinate"
    ⟨.num (.fin 10), .num (.fin 20), none, ()⟩ rfl

/-! ### C3 -/

/-- C3 (amended): `validateUnit` returns the default unit for every falsy
`unit` argument (absent, undefined, null, NaN, the number 0, false, or the
empty string) — not only for absent ones — and raises "Unit must be a string"
exactly for truthy non-string arguments. -/
theorem c3_unit_must_be_string (unit : JSAtom) (validUnits : List String)
    (defaultUnit : String) :
    (unit.truthy = false → validateUnit unit validUnits defaultUnit = .ok defaultUnit) ∧
    (unit.truthy = true → (∀ s, unit ≠ .str s) →
      validateUnit unit validUnits defaultUnit = .error "Unit must be a string") := by
  constructor
  · intro h
    simp [validateUnit, h]
  · intro ht hs
    cases unit with
    | str s => exact absurd rfl (hs s)
    | num n => simp [validateUnit, ht]
    | boolean b => simp [validateUnit, ht]
    | nullV => simp [validateUnit, ht]
    | undef => simp [validateUnit, ht]

/-- C3 counterexample: the number 0 and the boolean false are present
non-string unit values, yet `validateUnit` silently returns the default
instead of raising "Unit must be a string", because the `!unit` falsiness
test precedes the string check. -/
theorem c3_unit_must_be_string_counterexample :
    validateUnit (.num (.fin 0)) ["km", "miles", "meters"] "km" = .ok "km" ∧
    validateUnit (.boolean false) ["km", "miles", "meters"] "km" = .ok "km" :=
  ⟨rfl, rfl⟩

/-- C3 witness: the number 2 is truthy and not a string, so it raises. -/
theorem c3_unit_must_be_string_witness :
    validateUnit (.num (.fin 2)) ["km", "miles", "meters"] "km" =
      .error "Unit must be a string" :=
  (c3_unit_must_be_string (.num (.fin 2)) ["km", "miles", "meters"] "km").2
    (by decide) (fun s h => JSAtom.noConfusion h)

/-! ### C6 -/

/-- C6: for all valid coordinates and every valid distance unit,
`calculateDistance` is symmetric in its two coordinates, and the distance
from a coordinate to itself is exactly 0. -/
theorem c6_distance_symm_and_zero (o1 : JSObj α) (o2 : JSObj β) (unit : JSAtom)
    (u : String) (h1 : isValidCoordObj o1 = true) (h2 : isValidCoordObj o2 = true)
    (hu : validateUnit unit ["km", "miles", "meters"] "km" = .ok u) :
    calculateDistance (.obj o1) (.obj o2) unit =
      calculateDistance (.obj o2) (.obj o1) unit ∧
    calculateDistance (.obj o1) (.obj o1) unit = .ok 0 := by
  constructor
  · rw [calculateDistance_valid_eq o1 o2 unit u h1 h2 hu,
      calculateDistance_valid_eq o2 o1 unit u h2 h1 hu, haversineKm_comm]
  · rw [calculateDistance_valid_eq o1 o1 unit u h1 h1 hu, haversineKm_self, zero_mul]

/-- C6 witness at two concrete valid coordinates and the unit "km". -/
theorem c6_distance_symm_and_zero_witness :
    calculateDistance (.obj (⟨.num (.fin 10), .num (.fin 20), none, ()⟩ : JSObj Unit))
        (.obj (⟨.num (.fin 30), .num (.fin 40), none, ()⟩ : JSObj Unit)) (.str "km") =
      calculateDistance (.obj (⟨.num (.fin 30), .num (.fin 40), none, ()⟩ : JSObj Unit))
        (.obj (⟨.num (.fin 10), .num (.fin 20), none, ()⟩ : JSObj Unit)) (.str "km") ∧
    calculateDistance (.obj (⟨.num (.fin 10), .num (.fin 20), none, ()⟩ : JSObj Unit))
        (.obj (⟨.num (.fin 10), .num (.fin 20), none, ()⟩ : JSObj Unit)) (.str "km") =
      .ok 0 :=
  c6_distance_symm_and_zero ⟨.num (.fin 10), .num (.fin 20), none, ()⟩
    ⟨.num (.fin 30), .num (.fin 40), none, ()⟩ (.str "km") "km"
    (by decide) (by decide) rfl

/-! ### C10 -/

/-- C10: with a valid `fromCoord`, `getClosestCoordinate` and
`getFurthestCoordinate` applied to the empty list return null for every unit
argument whatsoever, because their empty-list check precedes unit validation;
`getCoordinatesWithinDistance` by contrast validates the unit even on the
empty list and propagates any unit-validation error. -/
theorem c10_empty_list_unit_handling {α β : Type} (fo : JSObj β)
    (hfo : isValidCoordObj fo = true) (unit : JSAtom) (m : JNum)
    (hm : m.jlt (.fin 0) = false) :
    getClosestCoordinate (.obj fo) ([] : List (JSInput α)) unit = .ok none ∧
    getFurthestCoordinate (.obj fo) ([] : List (JSInput α)) unit = .ok none ∧
    (∀ e, validateUnit unit ["km", "miles", "meters"] "km" = .error e →
      getCoordinatesWithinDistance (.obj fo) ([] : List (JSInput α)) (.num m) unit =
        .error e) := by
  refine ⟨?_, ?_, ?_⟩
  · unfold getClosestCoordinate
    rw [validateCoordinate_of_valid fo hfo]
    rfl
  · unfold getFurthestCoordinate
    rw [validateCoordinate_of_valid fo hfo]
    rfl
  · intro e he
    unfold getCoordinatesWithinDistance
    rw [validateCoordinate_of_valid fo hfo]
    simp only [Bind.bind, Except.bind]
    rw [if_neg (by simp [hm])]
    rw [he]

/-- C10 witness: an invalid unit string is ignored by the two empty-list
scans but raises in `getCoordinatesWithinDistance`. -/
theorem c10_empty_list_unit_handling_witness :
    getClosestCoordinate (.obj (⟨.num (.fin 0), .num (.fin 0), none, ()⟩ : JSObj Unit))
        ([] : List (JSInput Unit)) (.str "bogus") = .ok none ∧
    getFurthestCoordinate (.obj (⟨.num (.fin 0), .num (.fin 0), none, ()⟩ : JSObj Unit))
        ([] : List (JSInput Unit)) (.str "bogus") = .ok none ∧
    getCoordinatesWithinDistance
        (.obj (⟨.num (.fin 0), .num (.fin 0), none, ()⟩ : JSObj Unit))
        ([] : List (JSInput Unit)) (.num (.fin 5)) (.str "bogus") =
      .error "Invalid unit: bogus. Valid units are: km, miles, meters" := by
  obtain ⟨ha, hb, hc⟩ := c10_empty_list_unit_handling (α := Unit)
    (⟨.num (.fin 0), .num (.fin 0), none, ()⟩ : JSObj Unit) (by decide)
    (.str "bogus") (.fin 5) (by decide)
  exact ⟨ha, hb, hc _ rfl⟩

/-! ### C5 -/

theorem jneq_pair_self_of_valid (o : JSObj α) (h : isValidCoordObj o = true) :
    (o.lat.jneq o.lat || o.lng.jneq o.lng) = false := by
  unfold isValidCoordObj at h
  rw [Bool.and_eq_true] at h
  obtain ⟨qa, hla, _, _⟩ := (validNum_iff _ _ _).mp h.1
  obtain ⟨qb, hlb, _, _⟩ := (validNum_iff _ _ _).mp h.2
  rw [hla, hlb]
  simp [JSAtom.jneq, JNum.jneq]

theorem closeRing_of_ne (o1 : JSObj α) (rest : List (JSObj α))
    (h : (o1.lat.jneq ((o1 :: rest).getLast (by simp)).lat ||
          o1.lng.jneq ((o1 :: rest).getLast (by simp)).lng) = true) :
    closeRing (o1 :: rest) = (o1 :: rest) ++ [o1] := by
  unfold closeRing
  rw [List.getLast?_eq_getLast (o1 :: rest) (by simp)]
  simp only [List.head?_cons]
  simp [h]

theorem closeRing_of_closed (o1 : JSObj α) (rest : List (JSObj α))
    (h : (o1.lat.jneq o1.lat || o1.lng.jneq o1.lng) = false) :
    closeRing ((o1 :: rest) ++ [o1]) = (o1 :: rest) ++ [o1] := by
  unfold closeRing
  rw [List.getLast?_concat]
  rw [show ((o1 :: rest) ++ [o1]).head? = some o1 from by simp]
  simp [h]

/-- C5: on a polygon of at least 3 valid vertices whose first and last vertex
differ, `calculateGeofenceArea` applied to the open vertex list and to the
same list with a duplicated closing vertex appended yields the identical area
value (the open list is auto-closed to exactly the closed list, and the
already-closed list is left alone). -/
theorem c5_area_open_eq_closed (o1 : JSObj α) (rest : List (JSObj α)) (unit : JSAtom)
    (u : String) (hu : validateUnit unit ["km2", "miles2", "meters2"] "km2" = .ok u)
    (hos : ∀ o ∈ o1 :: rest, isValidCoordObj o = true)
    (hlen : 3 ≤ (o1 :: rest).length)
    (hne : (o1.lat.jneq ((o1 :: rest).getLast (by simp)).lat ||
            o1.lng.jneq ((o1 :: rest).getLast (by simp)).lng) = true) :
    ∃ a : ℝ,
      calculateGeofenceArea (.arr ((o1 :: rest).map .obj)) unit = .ok a ∧
      calculateGeofenceArea (.arr (((o1 :: rest) ++ [o1]).map .obj)) unit = .ok a := by
  have ho1 : isValidCoordObj o1 = true := hos o1 (by simp)
  have hosA : ∀ o ∈ (o1 :: rest) ++ [o1], isValidCoordObj o = true := by
    intro o hoo
    rcases List.mem_append.mp hoo with hoo | hoo
    · exact hos o hoo
    · rw [List.mem_singleton.mp hoo]
      exact ho1
  refine ⟨|rawArea (((o1 :: rest) ++ [o1]).map JSObj.toCoordinate)| * 6371 * 6371 / 2 *
    areaUnitFactor u, ?_, ?_⟩
  · rw [calculateGeofenceArea_valid_eq unit u hu (o1 :: rest) hos
      (by simp only [List.length_map, not_lt, List.length_cons] at hlen ⊢; omega)]
    rw [closeRing_of_ne o1 rest hne]
  · rw [calculateGeofenceArea_valid_eq unit u hu ((o1 :: rest) ++ [o1]) hosA
      (by simp only [List.length_map, not_lt, List.length_append, List.length_cons]
          at hlen ⊢; omega)]
    rw [closeRing_of_closed o1 rest (jneq_pair_self_of_valid o1 ho1)]

/-- C5 witness at a concrete open triangle. -/
theorem c5_area_open_eq_closed_witness :
    ∃ a : ℝ,
      calculateGeofenceArea
        (.arr (([⟨.num (.fin 0), .num (.fin 0), none, ()⟩,
          ⟨.num (.fin 1), .num (.fin 1), none, ()⟩,
          ⟨.num (.fin 2), .num (.fin 0), none, ()⟩] : List (JSObj Unit)).map .obj))
        (.str "km2") = .ok a ∧
      calculateGeofenceArea
        (.arr ((([⟨.num (.fin 0), .num (.fin 0), none, ()⟩,
          ⟨.num (.fin 1), .num (.fin 1), none, ()⟩,
          ⟨.num (.fin 2), .num (.fin 0), none, ()⟩] ++
          [⟨.num (.fin 0), .num (.fin 0), none, ()⟩]) : List (JSObj Unit)).map .obj))
        (.str "km2") = .ok a :=
  c5_area_open_eq_closed
    (⟨.num (.fin 0), .num (.fin 0), none, ()⟩ : JSObj Unit)
    [⟨.num (.fin 1), .num (.fin 1), none, ()⟩, ⟨.num (.fin 2), .num (.fin 0), none, ()⟩]
    (.str "km2") "km2" rfl (by decide) (by decide) (by decide)

/-! ### C4 -/

/-- C4 counterexample: a caller-supplied field named `distance` is NOT
preserved verbatim: the spread `... coord` followed by `distance: distance`
overwrites it with the computed distance.  Here the input record carries
`distance: 999` but lies at the reference point, so the returned record
carries the computed distance 0 instead of 999. -/
theorem c4_extra_fields_counterexample :
    getClosestCoordinate
        (.obj (⟨.num (.fin 0), .num (.fin 0), none, ()⟩ : JSObj Unit))
        [.obj (⟨.num (.fin 0), .num (.fin 0), some (.fin 999), ()⟩ : JSObj Unit)]
        (.str "km") =
      .ok (some ⟨.num (.fin 0), .num (.fin 0), (), 0⟩) ∧
    (⟨.num (.fin 0), .num (.fin 0), some (.fin 999), ()⟩ : JSObj Unit).distField =
      some (.fin 999) ∧
    (0 : ℝ) ≠ 999 := by
  refine ⟨?_, rfl, by norm_num⟩
  have h := getClosestCoordinate_valid_eq (β := Unit) (α := Unit)
    ⟨.num (.fin 0), .num (.fin 0), none, ()⟩ (by decide) (.str "km") "km" rfl
    ⟨.num (.fin 0), .num (.fin 0), some (.fin 999), ()⟩ [] (by decide)
  simp only [List.map_cons, List.map_nil] at h
  rw [h, optFoldMin_none]
  have hdist : annDistance
      (JSObj.toCoordinate (⟨.num (.fin 0), .num (.fin 0), none, ()⟩ : JSObj Unit)) "km"
      (⟨.num (.fin 0), .num (.fin 0), some (.fin 999), ()⟩ : JSObj Unit) = 0 := by
    rw [annDistance_eq]
    have h0 : haversineKm
        (JSObj.toCoordinate (⟨.num (.fin 0), .num (.fin 0), none, ()⟩ : JSObj Unit))
        (JSObj.toCoordinate
          (⟨.num (.fin 0), .num (.fin 0), some (.fin 999), ()⟩ : JSObj Unit)) = 0 :=
      haversineKm_self _
    rw [h0, zero_mul]
  have hann : annotateObj
      (JSObj.toCoordinate (⟨.num (.fin 0), .num (.fin 0), none, ()⟩ : JSObj Unit)) "km"
      (⟨.num (.fin 0), .num (.fin 0), some (.fin 999), ()⟩ : JSObj Unit) =
      (⟨.num (.fin 0), .num (.fin 0), (), 0⟩ : OutObj Unit) := by
    unfold annotateObj spreadWithDistance
    rw [hdist]
  rw [show foldMin (annotateObj
      (JSObj.toCoordinate (⟨.num (.fin 0), .num (.fin 0), none, ()⟩ : JSObj Unit)) "km"
      (⟨.num (.fin 0), .num (.fin 0), some (.fin 999), ()⟩ : JSObj Unit)) [] =
    annotateObj
      (JSObj.toCoordinate (⟨.num (.fin 0), .num (.fin 0), none, ()⟩ : JSObj Unit)) "km"
      (⟨.num (.fin 0), .num (.fin 0), some (.fin 999), ()⟩ : JSObj Unit) from rfl]
  rw [hann]

/-- C4 (amended): the three collection queries preserve `lat`, `lng` and
every other non-distance caller-supplied field (the opaque payload) of each
returned record verbatim, and never mutate their inputs (every output record
is freshly allocated); the `distance` field of the output however is always
the computed distance, so a caller-supplied `distance` field is overwritten
rather than preserved. -/
theorem c4_extra_fields_preserved (fo : JSObj β) (hfo : isValidCoordObj fo = true)
    (unit : JSAtom) (u : String)
    (hu : validateUnit unit ["km", "miles", "meters"] "km" = .ok u)
    (os : List (JSObj α)) (hos : ∀ o ∈ os, isValidCoordObj o = true)
    (m : JNum) (hm : m.jlt (.fin 0) = false) :
    (∀ out, getCoordinatesWithinDistance (.obj fo) (os.map .obj) (.num m) unit = .ok out →
      ∀ r ∈ out, ∃ o ∈ os, r.lat = o.lat ∧ r.lng = o.lng ∧ r.payload = o.payload ∧
        r.distance = annDistance fo.toCoordinate u o) ∧
    (∀ res, getClosestCoordinate (.obj fo) (os.map .obj) unit = .ok (some res) →
      ∃ o ∈ os, res.lat = o.lat ∧ res.lng = o.lng ∧ res.payload = o.payload ∧
        res.distance = annDistance fo.toCoordinate u o) ∧
    (∀ res, getFurthestCoordinate (.obj fo) (os.map .obj) unit = .ok (some res) →
      ∃ o ∈ os, res.lat = o.lat ∧ res.lng = o.lng ∧ res.payload = o.payload ∧
        res.distance = annDistance fo.toCoordinate u o) := by
  refine ⟨?_, ?_, ?_⟩
  · intro out hout r hr
    rw [getCoordinatesWithinDistance_valid_eq fo hfo unit u hu m hm os hos] at hout
    have hout' : out = List.insertionSort distLE
        ((os.map (annotateObj fo.toCoordinate u)).filter
          (fun r => jleJNum r.distance m)) := by
      injection hout with h
      exact h.symm
    subst hout'
    have hr2 : r ∈ (os.map (annotateObj fo.toCoordinate u)).filter
        (fun r => jleJNum r.distance m) :=
      (List.Perm.mem_iff (List.perm_insertionSort _ _)).mp hr
    have hr3 : r ∈ os.map (annotateObj fo.toCoordinate u) := (List.mem_filter.mp hr2).1
    obtain ⟨o, ho, rfl⟩ := List.mem_map.mp hr3
    exact ⟨o, ho, rfl, rfl, rfl, rfl⟩
  · intro res hres
    cases os with
    | nil =>
      unfold getClosestCoordinate at hres
      rw [validateCoordinate_of_valid fo hfo] at hres
      simp at hres
    | cons o1 os' =>
      rw [getClosestCoordinate_valid_eq fo hfo unit u hu o1 os' hos] at hres
      rw [List.map_cons, optFoldMin_none] at hres
      have hres' : res = foldMin (annotateObj fo.toCoordinate u o1)
          (os'.map (annotateObj fo.toCoordinate u)) := by
        injection hres with h
        exact (Option.some.injEq _ _ ▸ h).symm
      subst hres'
      have hmem := (foldMin_min_mem (annotateObj fo.toCoordinate u o1)
        (os'.map (annotateObj fo.toCoordinate u))).1
      rw [← List.map_cons] at hmem
      obtain ⟨o, ho, heq⟩ := List.mem_map.mp hmem
      refine ⟨o, ho, ?_, ?_, ?_, ?_⟩ <;> (rw [← heq]; rfl)

  · intro res hres
    cases os with
    | nil =>
      unfold getFurthestCoordinate at hres
      rw [validateCoordinate_of_valid fo hfo] at hres
      simp at hres
    | cons o1 os' =>
      rw [getFurthestCoordinate_valid_eq fo hfo unit u hu o1 os' hos] at hres
      rw [List.map_cons, optFoldMax_none _ _
        (lt_of_lt_of_le (by norm_num) (annDistance_nonneg fo.toCoordinate u o1))] at hres
      have hres' : res = foldMax (annotateObj fo.toCoordinate u o1)
          (os'.map (annotateObj fo.toCoordinate u)) := by
        injection hres with h
        exact (Option.some.injEq _ _ ▸ h).symm
      subst hres'
      have hmem := (foldMax_max_mem (annotateObj fo.toCoordinate u o1)
        (os'.map (annotateObj fo.toCoordinate u))).1
      rw [← List.map_cons] at hmem
      obtain ⟨o, ho, heq⟩ := List.mem_map.mp hmem
      refine ⟨o, ho, ?_, ?_, ?_, ?_⟩ <;> (rw [← heq]; rfl)

/-- C4 witness: the closest-record query on a concrete singleton list returns
a record whose non-distance fields coincide with the input record. -/
theorem c4_extra_fields_preserved_witness :
    ∃ o ∈ [(⟨.num (.fin 3), .num (.fin 4), none, ()⟩ : JSObj Unit)],
      (annotateObj
        (JSObj.toCoordinate (⟨.num (.fin 0), .num (.fin 0), none, ()⟩ : JSObj Unit))
        "km" (⟨.num (.fin 3), .num (.fin 4), none, ()⟩ : JSObj Unit)).lat = o.lat ∧
      (annotateObj
        (JSObj.toCoordinate (⟨.num (.fin 0), .num (.fin 0), none, ()⟩ : JSObj Unit))
        "km" (⟨.num (.fin 3), .num (.fin 4), none, ()⟩ : JSObj Unit)).lng = o.lng ∧
      (annotateObj
        (JSObj.toCoordinate (⟨.num (.fin 0), .num (.fin 0), none, ()⟩ : JSObj Unit))
        "km" (⟨.num (.fin 3), .num (.fin 4), none, ()⟩ : JSObj Unit)).payload = o.payload ∧
      (annotateObj
        (JSObj.toCoordinate (⟨.num (.fin 0), .num (.fin 0), none, ()⟩ : JSObj Unit))
        "km" (⟨.num (.fin 3), .num (.fin 4), none, ()⟩ : JSObj Unit)).distance =
        annDistance
          (JSObj.toCoordinate (⟨.num (.fin 0), .num (.fin 0), none, ()⟩ : JSObj Unit))
          "km" o := by
  have h := (c4_extra_fields_preserved (α := Unit)
    (⟨.num (.fin 0), .num (.fin 0), none, ()⟩ : JSObj Unit) (by decide)
    (.str "km") "km" rfl
    [⟨.num (.fin 3), .num (.fin 4), none, ()⟩] (by decide) (.fin 5) (by decide)).2.1
  apply h
  rw [getClosestCoordinate_valid_eq
    (⟨.num (.fin 0), .num (.fin 0), none, ()⟩ : JSObj Unit) (by decide)
    (.str "km") "km" rfl ⟨.num (.fin 3), .num (.fin 4), none, ()⟩ [] (by decide)]
  rw [List.map_cons, List.map_nil, optFoldMin_none]
  rfl

/-! ### C7 -/

/-- C7: on valid input, `getCoordinatesWithinDistance` returns exactly the
annotated input records whose computed distance is at most `maxDistance`
(a permutation of the in-order filtered list), sorted non-decreasing by
distance, stably on ties (the records at any fixed distance appear in input
order), and the empty sequence when no element qualifies. -/
theorem c7_within_distance_contract (fo : JSObj β) (hfo : isValidCoordObj fo = true)
    (unit : JSAtom) (u : String)
    (hu : validateUnit unit ["km", "miles", "meters"] "km" = .ok u)
    (q : ℚ) (hq : 0 ≤ q)
    (os : List (JSObj α)) (hos : ∀ o ∈ os, isValidCoordObj o = true) :
    ∃ out,
      getCoordinatesWithinDistance (.obj fo) (os.map .obj) (.num (.fin q)) unit =
        .ok out ∧
      out.Perm ((os.map (annotateObj fo.toCoordinate u)).filter
        (fun r => jleJNum r.distance (.fin q))) ∧
      List.Sorted distLE out ∧
      (∀ d : ℝ, out.filter (distEqB d) =
        ((os.map (annotateObj fo.toCoordinate u)).filter
          (fun r => jleJNum r.distance (.fin q))).filter (distEqB d)) ∧
      (((os.map (annotateObj fo.toCoordinate u)).filter
        (fun r => jleJNum r.distance (.fin q))) = [] → out = []) := by
  have hm : (JNum.fin q).jlt (.fin 0) = false := by
    simp only [JNum.jlt, decide_eq_false_iff_not]
    linarith
  refine ⟨_, getCoordinatesWithinDistance_valid_eq fo hfo unit u hu (.fin q) hm os hos,
    ?_, ?_, ?_, ?_⟩
  · exact List.perm_insertionSort _ _
  · exact List.sorted_insertionSort _ _
  · intro d
    exact filter_insertionSort d _
  · intro h
    rw [h]
    rfl

/-- C7 witness at a concrete reference point and singleton list. -/
theorem c7_within_distance_contract_witness :
    ∃ out,
      getCoordinatesWithinDistance
        (.obj (⟨.num (.fin 0), .num (.fin 0), none, ()⟩ : JSObj Unit))
        (([⟨.num (.fin 0), .num (.fin 0), none, ()⟩] : List (JSObj Unit)).map .obj)
        (.num (.fin 1)) (.str "km") = .ok out ∧
      out.Perm ((([⟨.num (.fin 0), .num (.fin 0), none, ()⟩] :
          List (JSObj Unit)).map (annotateObj
        (JSObj.toCoordinate (⟨.num (.fin 0), .num (.fin 0), none, ()⟩ : JSObj Unit))
        "km")).filter (fun r => jleJNum r.distance (.fin 1))) ∧
      List.Sorted distLE out ∧
      (∀ d : ℝ, out.filter (distEqB d) =
        ((([⟨.num (.fin 0), .num (.fin 0), none, ()⟩] :
            List (JSObj Unit)).map (annotateObj
          (JSObj.toCoordinate (⟨.num (.fin 0), .num (.fin 0), none, ()⟩ : JSObj Unit))
          "km")).filter (fun r => jleJNum r.distance (.fin 1))).filter (distEqB d)) ∧
      ((([⟨.num (.fin 0), .num (.fin 0), none, ()⟩] :
          List (JSObj Unit)).map (annotateObj
        (JSObj.toCoordinate (⟨.num (.fin 0), .num (.fin 0), none, ()⟩ : JSObj Unit))
        "km")).filter (fun r => jleJNum r.distance (.fin 1)) = [] → out = []) :=
  c7_within_distance_contract (⟨.num (.fin 0), .num (.fin 0), none, ()⟩ : JSObj Unit)
    (by decide) (.str "km") "km" rfl 1 (by norm_num)
    [⟨.num (.fin 0), .num (.fin 0), none, ()⟩] (by decide)

/-! ### C9 -/

/-- C9: for the same valid non-empty input list, the furthest distance is at
least the closest distance; on the empty list both queries return null; and
ties are broken toward the earliest element: in the annotated input list,
every record strictly before the returned one is strictly worse (strictly
farther for the closest query, strictly nearer for the furthest query) and
every record after it is no better, so the first record at the extreme
distance is the one returned. -/
theorem c9_closest_furthest_contract (fo : JSObj β) (hfo : isValidCoordObj fo = true)
    (unit : JSAtom) (u : String)
    (hu : validateUnit unit ["km", "miles", "meters"] "km" = .ok u)
    (os : List (JSObj α)) (hos : ∀ o ∈ os, isValidCoordObj o = true) :
    (os = [] → getClosestCoordinate (.obj fo) (os.map .obj) unit = .ok none ∧
      getFurthestCoordinate (.obj fo) (os.map .obj) unit = .ok none) ∧
    (os ≠ [] → ∃ cl fu,
      getClosestCoordinate (.obj fo) (os.map .obj) unit = .ok (some cl) ∧
      getFurthestCoordinate (.obj fo) (os.map .obj) unit = .ok (some fu) ∧
      cl.distance ≤ fu.distance ∧
      (∃ l1 l2, os.map (annotateObj fo.toCoordinate u) = l1 ++ cl :: l2 ∧
        (∀ x ∈ l1, cl.distance < x.distance) ∧
        (∀ x ∈ l2, cl.distance ≤ x.distance)) ∧
      (∃ l1 l2, os.map (annotateObj fo.toCoordinate u) = l1 ++ fu :: l2 ∧
        (∀ x ∈ l1, x.distance < fu.distance) ∧
        (∀ x ∈ l2, x.distance ≤ fu.distance))) := by
  constructor
  · rintro rfl
    constructor
    · unfold getClosestCoordinate
      rw [validateCoordinate_of_valid fo hfo]
      rfl
    · unfold getFurthestCoordinate
      rw [validateCoordinate_of_valid fo hfo]
      rfl
  · intro hne
    obtain ⟨o1, os', rfl⟩ := List.exists_cons_of_ne_nil hne
    refine ⟨foldMin (annotateObj fo.toCoordinate u o1)
        (os'.map (annotateObj fo.toCoordinate u)),
      foldMax (annotateObj fo.toCoordinate u o1)
        (os'.map (annotateObj fo.toCoordinate u)), ?_, ?_, ?_, ?_, ?_⟩
    · rw [getClosestCoordinate_valid_eq fo hfo unit u hu o1 os' hos, List.map_cons,
        optFoldMin_none]
    · rw [getFurthestCoordinate_valid_eq fo hfo unit u hu o1 os' hos, List.map_cons,
        optFoldMax_none _ _ (lt_of_lt_of_le (by norm_num)
          (annDistance_nonneg fo.toCoordinate u o1))]
    · exact (foldMin_min_mem _ _).2 _ (foldMax_max_mem _ _).1
    · obtain ⟨l1, l2, hsplit, hl1, hl2⟩ := foldMin_spec
        (os'.map (annotateObj fo.toCoordinate u)) (annotateObj fo.toCoordinate u o1)
      exact ⟨l1, l2, by rw [List.map_cons]; exact hsplit, hl1, hl2⟩
    · obtain ⟨l1, l2, hsplit, hl1, hl2⟩ := foldMax_spec
        (os'.map (annotateObj fo.toCoordinate u)) (annotateObj fo.toCoordinate u o1)
      exact ⟨l1, l2, by rw [List.map_cons]; exact hsplit, hl1, hl2⟩

/-- C9 witness at a concrete reference point and singleton list. -/
theorem c9_closest_furthest_contract_witness :
    ∃ cl fu,
      getClosestCoordinate
        (.obj (⟨.num (.fin 0), .num (.fin 0), none, ()⟩ : JSObj Unit))
        (([⟨.num (.fin 3), .num (.fin 4), none, ()⟩] : List (JSObj Unit)).map .obj)
        (.str "km") = .ok (some cl) ∧
      getFurthestCoordinate
        (.obj (⟨.num (.fin 0), .num (.fin 0), none, ()⟩ : JSObj Unit))
        (([⟨.num (.fin 3), .num (.fin 4), none, ()⟩] : List (JSObj Unit)).map .obj)
        (.str "km") = .ok (some fu) ∧
      cl.distance ≤ fu.distance ∧
      (∃ l1 l2, ([⟨.num (.fin 3), .num (.fin 4), none, ()⟩] :
          List (JSObj Unit)).map (annotateObj
        (JSObj.toCoordinate (⟨.num (.fin 0), .num (.fin 0), none, ()⟩ : JSObj Unit))
        "km") = l1 ++ cl :: l2 ∧
        (∀ x ∈ l1, cl.distance < x.distance) ∧
        (∀ x ∈ l2, cl.distance ≤ x.distance)) ∧
      (∃ l1 l2, ([⟨.num (.fin 3), .num (.fin 4), none, ()⟩] :
          List (JSObj Unit)).map (annotateObj
        (JSObj.toCoordinate (⟨.num (.fin 0), .num (.fin 0), none, ()⟩ : JSObj Unit))
        "km") = l1 ++ fu :: l2 ∧
        (∀ x ∈ l1, x.distance < fu.distance) ∧
        (∀ x ∈ l2, x.distance ≤ fu.distance)) :=
  (c9_closest_furthest_contract (⟨.num (.fin 0), .num (.fin 0), none, ()⟩ : JSObj Unit)
    (by decide) (.str "km") "km" rfl
    [⟨.num (.fin 3), .num (.fin 4), none, ()⟩] (by decide)).2 (by simp)

theorem validateCoordinate_err_of_suffix (c : JSInput α) (s : String)
    (h : coordErrSuffix c = some s) (label : String) :
    validateCoordinate c label = .error (label ++ s) := by
  cases c with
  | atom v =>
    simp only [coordErrSuffix, Option.some.injEq] at h
    subst h
    rfl
  | obj o =>
    obtain ⟨la, lo, df, pl⟩ := o
    cases la <;> cases lo <;>
      try (simp only [coordErrSuffix, Option.some.injEq] at h; subst h; rfl)
    rename_i nla nlo
    simp only [coordErrSuffix] at h
    cases h1 : (nla.jlt (.fin (-90)) || (JNum.fin 90).jlt nla) with
    | true =>
      rw [h1] at h
      simp only [if_true] at h
      simp only [Option.some.injEq] at h
      subst h
      simp [validateCoordinate, h1]
    | false =>
      rw [h1] at h
      simp only [Bool.false_eq_true, if_false] at h
      cases h2 : (nlo.jlt (.fin (-180)) || (JNum.fin 180).jlt nlo) with
      | true =>
        rw [h2] at h
        simp only [if_true, Option.some.injEq] at h
        subst h
        simp [validateCoordinate, h1, h2]
      | false =>
        rw [h2] at h
        simp at h

theorem validateCoordinate_ok_of_suffix_none (c : JSInput α)
    (h : coordErrSuffix c = none) (label : String) :
    ∃ o, c = .obj o ∧ validateCoordinate c label = .ok o := by
  cases c with
  | atom v => simp [coordErrSuffix] at h
  | obj o =>
    obtain ⟨la, lo, df, pl⟩ := o
    cases la <;> cases lo <;> try (simp only [coordErrSuffix] at h; cases h)
    rename_i nla nlo
    simp only [coordErrSuffix] at h
    cases h1 : (nla.jlt (.fin (-90)) || (JNum.fin 90).jlt nla) with
    | true =>
      rw [h1] at h
      simp at h
    | false =>
      rw [h1] at h
      simp only [Bool.false_eq_true, if_false] at h
      cases h2 : (nlo.jlt (.fin (-180)) || (JNum.fin 180).jlt nlo) with
      | true =>
        rw [h2] at h
        simp at h
      | false =>
        refine ⟨⟨.num nla, .num nlo, df, pl⟩, rfl, ?_⟩
        simp [validateCoordinate, h1, h2]

theorem suffix_none_of_validateCoordinate_ok (c : JSInput α) (o : JSObj α)
    (label : String) (h : validateCoordinate c label = .ok o) :
    coordErrSuffix c = none := by
  by_cases hs : coordErrSuffix c = none
  · exact hs
  · obtain ⟨s, hs'⟩ := Option.ne_none_iff_exists'.mp hs
    rw [validateCoordinate_err_of_suffix c s hs' label] at h
    cases h

theorem validateAllCoords_first_error (label : String) (s : String) :
    ∀ (l : List (JSInput α)) (k i : ℕ) (hi : i < l.length),
      (∀ j (hj : j < l.length), j < i → coordErrSuffix (l.get ⟨j, hj⟩) = none) →
      coordErrSuffix (l.get ⟨i, hi⟩) = some s →
      validateAllCoords label k l =
        .error (label ++ "[" ++ toString (k + i) ++ "]" ++ s) := by
  intro l
  induction l with
  | nil =>
    intro k i hi
    exact absurd hi (by simp)
  | cons c rest ih =>
    intro k i hi hprev hfail
    cases i with
    | zero =>
      have hc : coordErrSuffix c = some s := by simpa using hfail
      simp only [validateAllCoords]
      rw [validateCoordinate_err_of_suffix c s hc (label ++ "[" ++ toString k ++ "]")]
      simp only [Bind.bind, Except.bind]
      rw [Nat.add_zero]
    | succ i' =>
      have h0 : coordErrSuffix c = none := by
        have := hprev 0 (by simp) (Nat.succ_pos i')
        simpa using this
      obtain ⟨o, hobj, hok⟩ := validateCoordinate_ok_of_suffix_none c h0
        (label ++ "[" ++ toString k ++ "]")
      simp only [validateAllCoords]
      rw [hok]
      simp only [Bind.bind, Except.bind]
      rw [ih (k + 1) i' (by simpa using hi)
        (fun j hj hji => by
          have := hprev (j + 1) (by simpa using hj) (by omega)
          simpa using this)
        (by simpa using hfail)]
      rw [show k + 1 + i' = k + (i' + 1) from by omega]

theorem validateAllCoords_ok_suffix_none (label : String) :
    ∀ (l : List (JSInput α)) (k : ℕ) (os : List (JSObj α)),
      validateAllCoords label k l = .ok os → ∀ c ∈ l, coordErrSuffix c = none := by
  intro l
  induction l with
  | nil =>
    intro k os h c hc
    exact absurd hc (by simp)
  | cons c0 rest ih =>
    intro k os h c hc
    simp only [validateAllCoords] at h
    cases hv : validateCoordinate c0 (label ++ "[" ++ toString k ++ "]") with
    | error e =>
      rw [hv] at h
      simp [Bind.bind, Except.bind] at h
    | ok o0 =>
      rcases List.mem_cons.mp hc with rfl | hc'
      · exact suffix_none_of_validateCoordinate_ok c o0 _ hv
      · rw [hv] at h
        simp only [Bind.bind, Except.bind] at h
        cases ht : validateAllCoords label (k + 1) rest with
        | error e =>
          rw [ht] at h
          simp at h
        | ok os' => exact ih (k + 1) os' ht c hc'

/-- C8: `calculateGeofenceArea` raises for a non-sequence input, for fewer
than 3 vertices, and whenever an element fails coordinate validation; in the
last case the error message is the validation message of the first failing
element prefixed with its index (`coordinates[i]`); and whenever any element
fails validation no result is produced. -/
theorem c8_area_invalid_arguments {α : Type} :
    (∀ (v : JSInput α) (unit : JSAtom),
      calculateGeofenceArea (.notArr v) unit = .error "Coordinates must be an array") ∧
    (∀ (l : List (JSInput α)) (unit : JSAtom), l.length < 3 →
      calculateGeofenceArea (.arr l) unit =
        .error "At least 3 coordinates are required to form a polygon") ∧
    (∀ (l : List (JSInput α)) (unit : JSAtom) (i : ℕ) (hi : i < l.length) (s : String),
      3 ≤ l.length →
      (∀ j (hj : j < l.length), j < i → coordErrSuffix (l.get ⟨j, hj⟩) = none) →
      coordErrSuffix (l.get ⟨i, hi⟩) = some s →
      calculateGeofenceArea (.arr l) unit =
        .error ("coordinates" ++ "[" ++ toString i ++ "]" ++ s)) ∧
    (∀ (l : List (JSInput α)) (unit : JSAtom) (c : JSInput α), c ∈ l →
      coordErrSuffix c ≠ none → ∀ a : ℝ, calculateGeofenceArea (.arr l) unit ≠ .ok a) := by
  refine ⟨?_, ?_, ?_, ?_⟩
  · intro v unit
    rfl
  · intro l unit hlen
    simp only [calculateGeofenceArea]
    rw [if_pos hlen]
  · intro l unit i hi s hlen hprev hfail
    simp only [calculateGeofenceArea]
    rw [if_neg (not_lt.mpr hlen)]
    rw [show validateAllCoords "coordinates" 0 l =
      .error ("coordinates" ++ "[" ++ toString (0 + i) ++ "]" ++ s) from
      validateAllCoords_first_error "coordinates" s l 0 i hi hprev hfail]
    rw [Nat.zero_add]
    rfl
  · intro l unit c hc hcfail a
    simp only [calculateGeofenceArea]
    by_cases hlen : l.length < 3
    · rw [if_pos hlen]
      intro h
      cases h
    · rw [if_neg hlen]
      cases hv : validateAllCoords "coordinates" 0 l with
      | error e =>
        intro h
        simp [Bind.bind, Except.bind] at h
      | ok os =>
        exact absurd (validateAllCoords_ok_suffix_none "coordinates" l 0 os hv c hc)
          hcfail

/-- C8 witness: a polygon whose second vertex has latitude 91 raises with
the index-qualified message; a two-vertex list raises the too-few message; a
plain string input raises the non-array message. -/
theorem c8_area_invalid_arguments_witness :
    calculateGeofenceArea (.notArr (.atom (.str "not an array") : JSInput Unit))
        (.str "km2") = .error "Coordinates must be an array" ∧
    calculateGeofenceArea
        (.arr ([.obj ⟨.num (.fin 0), .num (.fin 0), none, ()⟩,
          .obj ⟨.num (.fin 1), .num (.fin 1), none, ()⟩] : List (JSInput Unit)))
        (.str "km2") =
      .error "At least 3 coordinates are required to form a polygon" ∧
    calculateGeofenceArea
        (.arr ([.obj ⟨.num (.fin 0), .num (.fin 0), none, ()⟩,
          .obj ⟨.num (.fin 91), .num (.fin 0), none, ()⟩,
          .obj ⟨.num (.fin 1), .num (.fin 1), none, ()⟩] : List (JSInput Unit)))
        (.str "km2") =
      .error "coordinates[1] latitude must be between -90 and 90 degrees" := by
  refine ⟨(c8_area_invalid_arguments).1 _ _, (c8_area_invalid_arguments).2.1 _ _
    (by decide), ?_⟩
  have h := (c8_area_invalid_arguments).2.2.1
    ([.obj ⟨.num (.fin 0), .num (.fin 0), none, ()⟩,
      .obj ⟨.num (.fin 91), .num (.fin 0), none, ()⟩,
      .obj ⟨.num (.fin 1), .num (.fin 1), none, ()⟩] : List (JSInput Unit))
    (.str "km2") 1 (by decide) " latitude must be between -90 and 90 degrees"
    (by decide) (by decide) (by decide)
  exact h

theorem ringEdges_ne_nil (v : Coordinate) (vs : List Coordinate) :
    ringEdges (v :: vs) ≠ [] := by
  cases vs with
  | nil => simp [ringEdges]
  | cons w ws => simp [ringEdges]

theorem isCoordinateNearGeofence_valid_eq (co : JSObj α) (hco : isValidCoordObj co = true)
    (os : List (JSObj β)) (hos : ∀ o ∈ os, isValidCoordObj o = true)
    (hlen : ¬ (os.map JSInput.obj).length < 3) (unit : JSAtom) (u : String)
    (hu : validateUnit unit ["km", "miles", "meters"] "km" = .ok u)
    (m : JNum) (hm : m.jlt (.fin 0) = false) :
    isCoordinateNearGeofence (.obj co) (.arr (os.map .obj)) (.num m) unit =
      .ok (nearResultPure co.toCoordinate u m (os.map JSObj.toCoordinate)) := by
  unfold isCoordinateNearGeofence
  rw [validateCoordinate_of_valid co hco]
  simp only [Bind.bind, Except.bind]
  rw [if_neg hlen]
  rw [validateAllCoords_of_valid "geofence" os hos 0]
  simp only [Bind.bind, Except.bind]
  rw [if_neg (by simp [hm])]
  rw [hu]
  simp only [Bind.bind, Except.bind]
  unfold nearResultPure
  cases hedge : ringEdges (os.map JSObj.toCoordinate) with
  | nil =>
    exfalso
    cases os with
    | nil => simp at hlen
    | cons o1 t =>
      rw [List.map_cons] at hedge
      exact ringEdges_ne_nil _ _ hedge
  | cons e rest =>
    obtain ⟨a, b⟩ := e
    rfl

theorem nearResultPure_spec (p : Coordinate) (u : String) (q : ℚ)
    (vs : List Coordinate) (hne : ringEdges vs ≠ []) :
    (∀ e ∈ ringEdges vs,
      (nearResultPure p u (.fin q) vs).distance ≤ edgeDistance u p e.1 e.2) ∧
    (∃ e ∈ ringEdges vs,
      (nearResultPure p u (.fin q) vs).distance = edgeDistance u p e.1 e.2 ∧
      (nearResultPure p u (.fin q) vs).closestPoint = closestPointOnSegment p e.1 e.2) ∧
    ((nearResultPure p u (.fin q) vs).isNear = true ↔
      (nearResultPure p u (.fin q) vs).distance ≤ (q : ℝ)) := by
  unfold nearResultPure
  cases hedge : ringEdges vs with
  | nil => exact absurd hedge hne
  | cons e rest =>
    obtain ⟨a, b⟩ := e
    simp only
    rw [nearScan_eq_foldMin]
    obtain ⟨hmem, hmin⟩ := foldMin_min_mem
      (pairOut (haversineKm p (closestPointOnSegment p a b) * unitFactor u,
        closestPointOnSegment p a b)) (rest.map (edgeOut p u))
    refine ⟨?_, ?_, ?_⟩
    · intro e he
      rcases List.mem_cons.mp he with rfl | he'
      · exact hmin _ (List.mem_cons_self _ _)
      · exact hmin (edgeOut p u e) (List.mem_cons_of_mem _ (List.mem_map_of_mem _ he'))
    · rcases List.mem_cons.mp hmem with hF | hF
      · refine ⟨(a, b), List.mem_cons_self _ _, ?_, ?_⟩
        · rw [hF]
          rfl
        · rw [hF]
          rfl
      · obtain ⟨e', he', hFe⟩ := List.mem_map.mp hF
        refine ⟨e', List.mem_cons_of_mem _ he', ?_, ?_⟩
        · rw [← hFe]
          rfl
        · rw [← hFe]
          rfl
    · simp [jleJNum]

/-- C1 (spec-modelled): `isCoordinateNearGeofence` is declared in index.d.ts
but not implemented among the source files; modelled from section 4.5 of the
spec.  For every valid coordinate, every geofence of at least 3 valid
vertices, every non-negative maxDistance and every valid linear unit it
returns an object with `distance` the global minimum point-to-segment
distance from the coordinate to the polygon boundary over every edge of the
closed ring, `closestPoint` a point attaining that minimum, and
`isNear = (distance <= maxDistance)`. -/
theorem c1_near_geofence_contract (co : JSObj α) (hco : isValidCoordObj co = true)
    (os : List (JSObj β)) (hos : ∀ o ∈ os, isValidCoordObj o = true)
    (hlen : 3 ≤ os.length) (unit : JSAtom) (u : String)
    (hu : validateUnit unit ["km", "miles", "meters"] "km" = .ok u)
    (q : ℚ) (hq : 0 ≤ q) :
    ∃ res,
      isCoordinateNearGeofence (.obj co) (.arr (os.map .obj)) (.num (.fin q)) unit =
        .ok res ∧
      (∀ e ∈ ringEdges (os.map JSObj.toCoordinate),
        res.distance ≤ edgeDistance u co.toCoordinate e.1 e.2) ∧
      (∃ e ∈ ringEdges (os.map JSObj.toCoordinate),
        res.distance = edgeDistance u co.toCoordinate e.1 e.2 ∧
        res.closestPoint = closestPointOnSegment co.toCoordinate e.1 e.2) ∧
      (res.isNear = true ↔ res.distance ≤ (q : ℝ)) := by
  have hm : (JNum.fin q).jlt (.fin 0) = false := by
    simp only [JNum.jlt, decide_eq_false_iff_not]
    linarith
  have hne : ringEdges (os.map JSObj.toCoordinate) ≠ [] := by
    cases os with
    | nil => simp at hlen
    | cons o1 t =>
      rw [List.map_cons]
      exact ringEdges_ne_nil _ _
  refine ⟨nearResultPure co.toCoordinate u (.fin q) (os.map JSObj.toCoordinate),
    isCoordinateNearGeofence_valid_eq co hco os hos
      (by simp only [List.length_map, not_lt]; exact hlen) unit u hu (.fin q) hm,
    ?_⟩
  exact nearResultPure_spec co.toCoordinate u q (os.map JSObj.toCoordinate) hne

/-- C1 witness at a concrete coordinate, triangle, radius 5 and unit "km". -/
theorem c1_near_geofence_contract_witness :
    ∃ res,
      isCoordinateNearGeofence
        (.obj (⟨.num (.fin 0), .num (.fin 0), none, ()⟩ : JSObj Unit))
        (.arr (([⟨.num (.fin 1), .num (.fin 1), none, ()⟩,
          ⟨.num (.fin 2), .num (.fin 1), none, ()⟩,
          ⟨.num (.fin 2), .num (.fin 2), none, ()⟩] : List (JSObj Unit)).map .obj))
        (.num (.fin 5)) (.str "km") = .ok res ∧
      (∀ e ∈ ringEdges (([⟨.num (.fin 1), .num (.fin 1), none, ()⟩,
          ⟨.num (.fin 2), .num (.fin 1), none, ()⟩,
          ⟨.num (.fin 2), .num (.fin 2), none, ()⟩] :
            List (JSObj Unit)).map JSObj.toCoordinate),
        res.distance ≤ edgeDistance "km"
          (JSObj.toCoordinate (⟨.num (.fin 0), .num (.fin 0), none, ()⟩ : JSObj Unit))
          e.1 e.2) ∧
      (∃ e ∈ ringEdges (([⟨.num (.fin 1), .num (.fin 1), none, ()⟩,
          ⟨.num (.fin 2), .num (.fin 1), none, ()⟩,
          ⟨.num (.fin 2), .num (.fin 2), none, ()⟩] :
            List (JSObj Unit)).map JSObj.toCoordinate),
        res.distance = edgeDistance "km"
          (JSObj.toCoordinate (⟨.num (.fin 0), .num (.fin 0), none, ()⟩ : JSObj Unit))
          e.1 e.2 ∧
        res.closestPoint = closestPointOnSegment
          (JSObj.toCoordinate (⟨.num (.fin 0), .num (.fin 0), none, ()⟩ : JSObj Unit))
          e.1 e.2) ∧
      (res.isNear = true ↔ res.distance ≤ ((5 : ℚ) : ℝ)) :=
  c1_near_geofence_contract (⟨.num (.fin 0), .num (.fin 0), none, ()⟩ : JSObj Unit)
    (by decide)
    [⟨.num (.fin 1), .num (.fin 1), none, ()⟩,
      ⟨.num (.fin 2), .num (.fin 1), none, ()⟩,
      ⟨.num (.fin 2), .num (.fin 2), none, ()⟩]
    (by decide) (by decide) (.str "km") "km" rfl 5 (by norm_num)

end VertibitCords
